import Mathlib

/-!
DHT11 reader (`dht11_data.cpp`): embedding and verified properties.

The program reads a DHT11 sensor over one GPIO line.  The embedding follows the
source function by function:

* `expectPulse`  (lines 68-77)   busy-polls the line and counts iterations;
* `readDHT`      (lines 80-201)  start signal, two acknowledgment pulses,
                                 80 capture pulses, decode loop, checksum;
* `readTemperature`, `readHumidity` (lines 204-219) translate the buffer.

Machine integers are natural numbers with explicit reduction modulo `2 ^ w`
where the source type can wrap.  The electrical line is a function from the
poll index (how many times `gpiod_line_get_value` has been called so far) to the
level read at that poll.  Calls into `libgpiod` are recorded in a call log,
newest call first.
-/

namespace DHT11

/-! ## Data model -/

/-- The global `std::uint8_t data[5]`: five bytes, addressed `data[0]`..`data[4]`. -/
structure Frame where
  b0 : Nat
  b1 : Nat
  b2 : Nat
  b3 : Nat
  b4 : Nat
deriving DecidableEq, Repr

/-- Reading `data[k]`.  Indices above 4 are never used by the program. -/
def Frame.get (f : Frame) : Nat → Nat
  | 0 => f.b0
  | 1 => f.b1
  | 2 => f.b2
  | 3 => f.b3
  | 4 => f.b4
  | _ => 0

/-- Writing `data[k] = v`.  Indices above 4 are never used by the program. -/
def Frame.set (f : Frame) (k v : Nat) : Frame :=
  match k with
  | 0 => { f with b0 := v }
  | 1 => { f with b1 := v }
  | 2 => { f with b2 := v }
  | 3 => { f with b3 := v }
  | 4 => { f with b4 := v }
  | _ => f

/-- The buffer after `data[0] = data[1] = data[2] = data[3] = data[4] = 0`. -/
def Frame.zero : Frame := ⟨0, 0, 0, 0, 0⟩

/-- Every entry of the buffer is a `uint8_t` value. -/
def Frame.IsBytes (f : Frame) : Prop :=
  f.b0 < 256 ∧ f.b1 < 256 ∧ f.b2 < 256 ∧ f.b3 < 256 ∧ f.b4 < 256

instance (f : Frame) : Decidable f.IsBytes := by
  unfold Frame.IsBytes
  infer_instance

/-- The macro `_TIMEOUT`, that is `UINT32_MAX`. -/
def _TIMEOUT : Nat := 4294967295

/-- Calls into `libgpiod` and the standard library made by the program. -/
inductive Call where
  | chip_open_by_name
  | chip_get_line
  | line_request_input_flags
  | line_request_input
  | line_request_output
  | line_release
  | line_get_value
  | chip_close
  | sleep_for
deriving DecidableEq, Repr

/-- The hardware side of a run: how many times the line has been read so far,
and the log of calls, newest first. -/
structure Wire where
  polls : Nat
  log : List Call
deriving DecidableEq, Repr

/-- The program's global variables that `readDHT` writes. -/
structure Globals where
  data : Frame
  lastresult : Bool
deriving DecidableEq, Repr

/-- Record one call in the log. -/
def Wire.call (w : Wire) (c : Call) : Wire :=
  { w with log := c :: w.log }

/-- One `gpiod_line_get_value(data_line)`: the level at the current poll index
(the read is taken to succeed, so it is 0 or 1); the poll index advances and
the call is logged. -/
def gpiod_line_get_value (line : Nat → Bool) (w : Wire) : Bool × Wire :=
  (line w.polls, { polls := w.polls + 1, log := Call.line_get_value :: w.log })

/-! ## `expectPulse` -/

/-- The `while` loop of `expectPulse`, with `count` the `uint32_t` counter.
The first argument bounds the number of iterations; `none` means the bound was
too small (see `expectPulse_returns`: it never is). -/
def expectPulseLoop (line : Nat → Bool) (level : Bool) (_maxcycles : Nat) :
    Nat → Nat → Wire → Option (Nat × Wire)
  | 0, _, _ => none
  | fuel + 1, count, w =>
    let r := gpiod_line_get_value line w
    if r.1 = level then
      -- `count++ >= _maxcycles`: compare the old value, then increment
      if count ≥ _maxcycles then some (_TIMEOUT, r.2)
      else expectPulseLoop line level _maxcycles fuel ((count + 1) % 2 ^ 32) r.2
    else some (count, r.2)

/-- The function `expectPulse(level)`: `count` starts at 0. -/
def expectPulse (line : Nat → Bool) (_maxcycles : Nat) (level : Bool) (w : Wire) :
    Option (Nat × Wire) :=
  expectPulseLoop line level _maxcycles (_maxcycles + 1) 0 w

/-- What one call of `expectPulse` did: the value returned, whether it left
through the timeout `return` of line 73, the last value of the local variable
`count`, and whether a `count++` went past `UINT32_MAX`. -/
structure PulseRun where
  value : Nat
  timedOut : Bool
  count : Nat
  wrapped : Bool
  wire : Wire
deriving DecidableEq, Repr

/-- The `while` loop of `expectPulse` once more, now keeping the local variable
`count` in view: `count++` is carried out on every pass through line 71, also on
the pass that returns `_TIMEOUT`. -/
def expectPulseCounter (line : Nat → Bool) (level : Bool) (_maxcycles : Nat) :
    Nat → Nat → Bool → Wire → Option PulseRun
  | 0, _, _, _ => none
  | fuel + 1, count, wrapped, w =>
    let r := gpiod_line_get_value line w
    if r.1 = level then
      if count ≥ _maxcycles then
        some ⟨_TIMEOUT, true, (count + 1) % 2 ^ 32, wrapped || decide (2 ^ 32 ≤ count + 1), r.2⟩
      else
        expectPulseCounter line level _maxcycles fuel ((count + 1) % 2 ^ 32)
          (wrapped || decide (2 ^ 32 ≤ count + 1)) r.2
    else some ⟨count, false, count, wrapped, r.2⟩

/-- The function `expectPulse(level)` with its counter in view. -/
def expectPulseRun (line : Nat → Bool) (_maxcycles : Nat) (level : Bool) (w : Wire) :
    Option PulseRun :=
  expectPulseCounter line level _maxcycles (_maxcycles + 1) 0 false w

/-! ## `readDHT` -/

/-- Lines 82-120: open the chip, get the line, and send the start signal. -/
def startSignal (w : Wire) : Wire :=
  let w := w.call Call.chip_open_by_name
  let w := w.call Call.chip_get_line
  let w := w.call Call.line_request_input_flags
  let w := w.call Call.line_release
  let w := w.call Call.line_request_output
  let w := w.call Call.sleep_for
  let w := w.call Call.line_release
  let w := w.call Call.line_request_input_flags
  let w := w.call Call.line_release
  w.call Call.line_request_input

/-- Assignment `cycles[k] = v` on the local array `uint32_t cycles[80]`. -/
def setCycle (cycles : Nat → Nat) (k v : Nat) : Nat → Nat :=
  fun j => if j = k then v else cycles j

/-- The capture loop, lines 151-154: `n` iterations remain, `i` is the loop
variable (it advances by 2). -/
def captureLoop (line : Nat → Bool) (_maxcycles : Nat) :
    Nat → Nat → (Nat → Nat) → Wire → Option ((Nat → Nat) × Wire)
  | 0, _, cycles, w => some (cycles, w)
  | n + 1, i, cycles, w =>
    match expectPulse line _maxcycles false w with
    | none => none
    | some (lo, w) =>
      match expectPulse line _maxcycles true w with
      | none => none
      | some (hi, w) =>
        captureLoop line _maxcycles n (i + 2) (setCycle (setCycle cycles i lo) (i + 1) hi) w

/-- The decode loop, lines 164-181: `n` iterations remain, `i` is the loop
variable.  The result is `(false, data)` when the loop left `readDHT` through
its timeout `return`, and `(true, data)` when it ran to the end. -/
def decodeLoop (cycles : Nat → Nat) : Nat → Nat → Frame → Bool × Frame
  | 0, _, data => (true, data)
  | n + 1, i, data =>
    let lowCycles := cycles (2 * i)
    let highCycles := cycles (2 * i + 1)
    if lowCycles = _TIMEOUT ∨ highCycles = _TIMEOUT then (false, data)
    else
      -- `data[i / 8] <<= 1` on a `uint8_t`
      let data := data.set (i / 8) ((data.get (i / 8) <<< 1) % 256)
      let data := if highCycles > lowCycles then data.set (i / 8) (data.get (i / 8) ||| 1)
        else data
      decodeLoop cycles n (i + 1) data

/-- The checksum test of line 191. -/
def checksumOk (data : Frame) : Bool :=
  data.b4 == ((data.b0 + data.b1 + data.b2 + data.b3) &&& 0xFF)

/-- The function `readDHT()`.  It returns its `bool` result together with the
globals and the hardware state it leaves behind.  The buffer is reset at
line 145, so the decode loop starts from `Frame.zero`; on the two early
returns the buffer is the one the call started with. -/
def readDHT (line : Nat → Bool) (_maxcycles : Nat) (g : Globals) (w : Wire) :
    Option (Bool × Globals × Wire) :=
  match expectPulse line _maxcycles false (startSignal w) with
  | none => none
  | some (p, w) =>
    if p = _TIMEOUT then some (false, { data := g.data, lastresult := false }, w)
    else
      match expectPulse line _maxcycles true w with
      | none => none
      | some (p, w) =>
        if p = _TIMEOUT then some (false, { data := g.data, lastresult := false }, w)
        else
          match captureLoop line _maxcycles 40 0 (fun _ => 0)
              ((w.call Call.line_release).call Call.line_request_input) with
          | none => none
          | some (cycles, w) =>
            match decodeLoop cycles 40 0 Frame.zero with
            | (false, data) =>
              some (false, { data := data, lastresult := false },
                (w.call Call.line_release).call Call.chip_close)
            | (true, data) =>
              if checksumOk data then
                some (true, { data := data, lastresult := true },
                  (w.call Call.line_release).call Call.chip_close)
              else
                some (false, { data := data, lastresult := false },
                  (w.call Call.line_release).call Call.chip_close)

/-! ## `readTemperature` and `readHumidity`, in exact rational arithmetic

The source computes these in `double` and returns `float`.  The definitions
below give the exact value of the same expressions; statements about them are
statements in exact arithmetic. -/

/-- The function `readTemperature()` on the buffer, taken in exact rational
arithmetic: `0.1` is read as `1/10`, and the rounding of the source's `double`
and `float` is left out. -/
def readTemperature (data : Frame) : ℚ :=
  let t : ℚ := data.b2
  let t := if data.b3 &&& 0x80 ≠ 0 then -1 - t else t
  t + ((data.b3 &&& 0x0f : Nat) : ℚ) * (1 / 10)

/-- The function `readHumidity()` on the buffer, taken in exact rational
arithmetic: `0.1` is read as `1/10`, and the rounding of the source's `double`
and `float` is left out. -/
def readHumidity (data : Frame) : ℚ :=
  (data.b0 : ℚ) + (data.b1 : ℚ) * (1 / 10)

/-! ## Auxiliary definitions used to state the properties -/

/-- The bit that the decode loop derives from pair `i` of the samples. -/
def pairBit (cycles : Nat → Nat) (i : Nat) : Bool :=
  decide (cycles (2 * i + 1) > cycles (2 * i))

/-- One iteration of the decode loop on a byte: shift left within 8 bits, then
set bit 0 when the decoded bit is 1. -/
def pushBit (x : Nat) (b : Bool) : Nat :=
  if b then ((x <<< 1) % 256) ||| 1 else (x <<< 1) % 256

/-- The decode loop when no sample is the sentinel, as a function of the bits. -/
def decodeBits (bits : Nat → Bool) : Nat → Nat → Frame → Frame
  | 0, _, data => data
  | n + 1, i, data =>
    decodeBits bits n (i + 1) (data.set (i / 8) (pushBit (data.get (i / 8)) (bits i)))

/-- Eight decoded bits pushed into a byte that starts at `x`, first bit first. -/
def push8 (x : Nat) (c0 c1 c2 c3 c4 c5 c6 c7 : Bool) : Nat :=
  pushBit (pushBit (pushBit (pushBit (pushBit (pushBit (pushBit (pushBit x c0) c1) c2) c3)
    c4) c5) c6) c7

/-- Byte `j` of the frame decoded from the bits `c`: bits `8j .. 8j+7`. -/
def byteOf (c : Nat → Bool) (j : Nat) : Nat :=
  push8 0 (c (8 * j)) (c (8 * j + 1)) (c (8 * j + 2)) (c (8 * j + 3)) (c (8 * j + 4))
    (c (8 * j + 5)) (c (8 * j + 6)) (c (8 * j + 7))

/-! ## The pulse samples that a run of `readDHT` takes -/

/-- The acknowledgment-low sample: `expectPulse(0)` of line 122. -/
def ackLowPulse (line : Nat → Bool) (_maxcycles : Nat) (w : Wire) : Option (Nat × Wire) :=
  expectPulse line _maxcycles false (startSignal w)

/-- The acknowledgment-high sample: `expectPulse(1)` of line 128. -/
def ackHighPulse (line : Nat → Bool) (_maxcycles : Nat) (w : Wire) : Option (Nat × Wire) :=
  (ackLowPulse line _maxcycles w).bind (fun r => expectPulse line _maxcycles true r.2)

/-- The 80 capture samples: the array `cycles` after the loop of lines 151-154. -/
def capturePulses (line : Nat → Bool) (_maxcycles : Nat) (w : Wire) :
    Option ((Nat → Nat) × Wire) :=
  (ackHighPulse line _maxcycles w).bind (fun r =>
    captureLoop line _maxcycles 40 0 (fun _ => 0)
      ((r.2.call Call.line_release).call Call.line_request_input))

/-- What `readDHT` returns and leaves in the globals, given the samples it
takes: lines 122-132 and 164-199 with the calls to `expectPulse` replaced by
their results. -/
def outcomeOf (aL aH : Nat) (cycles : Nat → Nat) (g : Globals) : Bool × Globals :=
  if aL = _TIMEOUT then (false, { data := g.data, lastresult := false })
  else if aH = _TIMEOUT then (false, { data := g.data, lastresult := false })
  else
    match decodeLoop cycles 40 0 Frame.zero with
    | (false, data) => (false, { data := data, lastresult := false })
    | (true, data) =>
      if checksumOk data then (true, { data := data, lastresult := true })
      else (false, { data := data, lastresult := false })

/-- The 80 entries of the array `cycles`, in order. -/
def samplesOf (cycles : Nat → Nat) : List Nat :=
  (List.range 80).map cycles

/-- The value of the acknowledgment-low sample of a run. -/
def ackLowSample (line : Nat → Bool) (_maxcycles : Nat) (w : Wire) : Option Nat :=
  (ackLowPulse line _maxcycles w).map Prod.fst

/-- The value of the acknowledgment-high sample of a run. -/
def ackHighSample (line : Nat → Bool) (_maxcycles : Nat) (w : Wire) : Option Nat :=
  (ackHighPulse line _maxcycles w).map Prod.fst

/-- The values of the 80 capture samples of a run. -/
def captureSamples (line : Nat → Bool) (_maxcycles : Nat) (w : Wire) : Option (List Nat) :=
  (capturePulses line _maxcycles w).map (fun r => samplesOf r.1)

/-- The frame that the decode loop makes of the capture samples of a run,
with the flag telling whether the loop ran to the end. -/
def decodedFrame (line : Nat → Bool) (_maxcycles : Nat) (w : Wire) : Option (Bool × Frame) :=
  (capturePulses line _maxcycles w).map (fun r => decodeLoop r.1 40 0 Frame.zero)

/-- The frame with one bit flipped: position `p` (0..39) is bit `p % 8` of
byte `p / 8`. -/
def flipBit (f : Frame) (p : Nat) : Frame :=
  f.set (p / 8) (f.get (p / 8) ^^^ (1 <<< (p % 8)))

/-! ## Simulated exchanges, used for concrete runs -/

/-- Bit `i` (0..39) of a frame in transmission order: most significant bit of
byte 0 first. -/
def frameBit (f : Frame) (i : Nat) : Bool :=
  (f.get (i / 8)).testBit (7 - i % 8)

/-- Capture samples that encode a frame: every low phase counts 3, a high phase
counts 5 for a 1 bit and 2 for a 0 bit. -/
def cyclesOfFrame (f : Frame) : Nat → Nat :=
  fun k => if k % 2 = 0 then 3 else if frameBit f (k / 2) then 5 else 2

/-- The readings of a line that produces the given pulses: a pulse `(level, n)`
is read as `n` polls at `level` followed by one poll at the opposite level. -/
def levelsOf : List (Bool × Nat) → List Bool
  | [] => []
  | (lv, n) :: rest => List.replicate n lv ++ (!lv) :: levelsOf rest

/-- The pulses of a whole exchange for a frame: acknowledgment low and high
(4 counts each), then the 40 pairs of `cyclesOfFrame`. -/
def pulsesOfFrame (f : Frame) : List (Bool × Nat) :=
  (false, 4) :: (true, 4) ::
    (List.range 80).map (fun k => (decide (k % 2 = 1), cyclesOfFrame f k))

/-- A simulated line: it plays the given readings, then idles high. -/
def lineOf (l : List Bool) : Nat → Bool :=
  fun k => l.getD k true

/-- The hardware state after `n` further reads of the line. -/
def Wire.polled (w : Wire) (n : Nat) : Wire :=
  ⟨w.polls + n, List.replicate n Call.line_get_value ++ w.log⟩

/-- The simulated line of an exchange that transmits the frame `f`. -/
def lineOfFrame (f : Frame) : Nat → Bool :=
  lineOf (levelsOf (pulsesOfFrame f))

/-- The pulses of an exchange in which every high phase lasts exactly as long
as the low phase before it (3 counts each). -/
def pulsesOfTies : List (Bool × Nat) :=
  (false, 4) :: (true, 4) :: (List.range 80).map (fun k => (decide (k % 2 = 1), 3))

/-- The simulated line of the all-tie exchange. -/
def lineOfTies : Nat → Bool :=
  lineOf (levelsOf pulsesOfTies)

/-- The state of the hardware before the first call. -/
def Wire.init : Wire := ⟨0, []⟩

/-! ## Buffer lemmas -/

theorem Frame.get_set_same (f : Frame) (k v : Nat) (hk : k < 5) : (f.set k v).get k = v := by
  have h : k = 0 ∨ k = 1 ∨ k = 2 ∨ k = 3 ∨ k = 4 := by omega
  rcases h with h | h | h | h | h <;> subst h <;> rfl

theorem Frame.set_set_same (f : Frame) (k v v2 : Nat) (hk : k < 5) :
    (f.set k v).set k v2 = f.set k v2 := by
  have h : k = 0 ∨ k = 1 ∨ k = 2 ∨ k = 3 ∨ k = 4 := by omega
  rcases h with h | h | h | h | h <;> subst h <;> rfl

/-! ## The decode loop -/

/-- One iteration of the decode loop on a pair without sentinel. -/
theorem decodeLoop_step (cycles : Nat → Nat) (n i : Nat) (data : Frame) (hi : i < 40)
    (hlo : cycles (2 * i) ≠ _TIMEOUT) (hhi : cycles (2 * i + 1) ≠ _TIMEOUT) :
    decodeLoop cycles (n + 1) i data
      = decodeLoop cycles n (i + 1)
          (data.set (i / 8) (pushBit (data.get (i / 8)) (pairBit cycles i))) := by
  have hk : i / 8 < 5 := by omega
  simp only [decodeLoop, hlo, hhi, or_self, if_false, pushBit, pairBit]
  by_cases hc : cycles (2 * i + 1) > cycles (2 * i)
  · simp [hc, Frame.get_set_same _ _ _ hk, Frame.set_set_same _ _ _ _ hk]
  · simp [hc]

/-- Without a sentinel among the pairs it visits, the decode loop completes
and computes `decodeBits` of the pair bits. -/
theorem decodeLoop_eq_decodeBits (cycles : Nat → Nat) :
    ∀ (n i : Nat) (data : Frame), i + n ≤ 40 →
      (∀ k, 2 * i ≤ k → k < 2 * (i + n) → cycles k ≠ _TIMEOUT) →
      decodeLoop cycles n i data = (true, decodeBits (pairBit cycles) n i data) := by
  intro n
  induction n with
  | zero => intro i data _ _; rfl
  | succ n ih =>
    intro i data hin h
    rw [decodeLoop_step cycles n i data (by omega) (h _ (by omega) (by omega))
      (h _ (by omega) (by omega))]
    rw [ih (i + 1) _ (by omega) (fun k h1 h2 => h k (by omega) (by omega))]
    rfl

/-- The 40 iterations from the zeroed buffer, byte by byte. -/
theorem decodeBits_zero (c : Nat → Bool) :
    decodeBits c 40 0 Frame.zero
      = ⟨byteOf c 0, byteOf c 1, byteOf c 2, byteOf c 3, byteOf c 4⟩ := by
  rfl

/-- Bits of a byte built from eight pushes: the first bit pushed is bit 7. -/
theorem push8_testBit (c0 c1 c2 c3 c4 c5 c6 c7 : Bool) :
    (push8 0 c0 c1 c2 c3 c4 c5 c6 c7).testBit 7 = c0 ∧
    (push8 0 c0 c1 c2 c3 c4 c5 c6 c7).testBit 6 = c1 ∧
    (push8 0 c0 c1 c2 c3 c4 c5 c6 c7).testBit 5 = c2 ∧
    (push8 0 c0 c1 c2 c3 c4 c5 c6 c7).testBit 4 = c3 ∧
    (push8 0 c0 c1 c2 c3 c4 c5 c6 c7).testBit 3 = c4 ∧
    (push8 0 c0 c1 c2 c3 c4 c5 c6 c7).testBit 2 = c5 ∧
    (push8 0 c0 c1 c2 c3 c4 c5 c6 c7).testBit 1 = c6 ∧
    (push8 0 c0 c1 c2 c3 c4 c5 c6 c7).testBit 0 = c7 ∧
    push8 0 c0 c1 c2 c3 c4 c5 c6 c7 < 256 := by
  revert c0 c1 c2 c3 c4 c5 c6 c7
  decide

theorem byteOf_lt (c : Nat → Bool) (j : Nat) : byteOf c j < 256 :=
  (push8_testBit _ _ _ _ _ _ _ _).2.2.2.2.2.2.2.2

/-- Bit `7 - t` of byte `j` is the decoded bit number `8j + t`. -/
theorem byteOf_testBit (c : Nat → Bool) (j t : Nat) (ht : t < 8) :
    (byteOf c j).testBit (7 - t) = c (8 * j + t) := by
  have h := push8_testBit (c (8 * j)) (c (8 * j + 1)) (c (8 * j + 2)) (c (8 * j + 3))
    (c (8 * j + 4)) (c (8 * j + 5)) (c (8 * j + 6)) (c (8 * j + 7))
  have ht2 : t = 0 ∨ t = 1 ∨ t = 2 ∨ t = 3 ∨ t = 4 ∨ t = 5 ∨ t = 6 ∨ t = 7 := by omega
  rcases ht2 with e | e | e | e | e | e | e | e <;> subst e
  · exact h.1
  · exact h.2.1
  · exact h.2.2.1
  · exact h.2.2.2.1
  · exact h.2.2.2.2.1
  · exact h.2.2.2.2.2.1
  · exact h.2.2.2.2.2.2.1
  · exact h.2.2.2.2.2.2.2.1

/-- Bit `i` of the decoded frame, in transmission order. -/
theorem decoded_frame_bit (c : Nat → Bool) (i : Nat) (hi : i < 40) :
    ((⟨byteOf c 0, byteOf c 1, byteOf c 2, byteOf c 3, byteOf c 4⟩ : Frame).get (i / 8)).testBit
      (7 - i % 8) = c i := by
  have hget : (⟨byteOf c 0, byteOf c 1, byteOf c 2, byteOf c 3, byteOf c 4⟩ : Frame).get (i / 8)
      = byteOf c (i / 8) := by
    have hk : i / 8 = 0 ∨ i / 8 = 1 ∨ i / 8 = 2 ∨ i / 8 = 3 ∨ i / 8 = 4 := by omega
    rcases hk with e | e | e | e | e <;> rw [e] <;> rfl
  rw [hget, byteOf_testBit c (i / 8) (i % 8) (Nat.mod_lt _ (by decide)), Nat.div_add_mod]

/-- C1. For 80 samples none of which is the timeout sentinel, the decode loop
started from the zeroed buffer runs to the end and yields five bytes in which
bit `7 - i % 8` of byte `i / 8` is 1 exactly when `sample[2i+1] > sample[2i]`
(so it is 0 on a tie): bits are packed most significant bit first. -/
theorem decodeLoop_bits_msb_first (cycles : Nat → Nat)
    (h : ∀ k, k < 80 → cycles k ≠ _TIMEOUT) :
    ∃ data : Frame, decodeLoop cycles 40 0 Frame.zero = (true, data) ∧ data.IsBytes ∧
      ∀ i, i < 40 →
        ((data.get (i / 8)).testBit (7 - i % 8) = decide (cycles (2 * i + 1) > cycles (2 * i))) ∧
        (cycles (2 * i + 1) = cycles (2 * i) → (data.get (i / 8)).testBit (7 - i % 8) = false) := by
  have hdec := decodeLoop_eq_decodeBits cycles 40 0 Frame.zero (by omega)
    (fun k _ hk => h k (by omega))
  rw [decodeBits_zero] at hdec
  refine ⟨_, hdec, ?_, ?_⟩
  · exact ⟨byteOf_lt _ _, byteOf_lt _ _, byteOf_lt _ _, byteOf_lt _ _, byteOf_lt _ _⟩
  · intro i hi
    rw [decoded_frame_bit (pairBit cycles) i hi]
    exact ⟨rfl, fun heq => by simp [pairBit, heq]⟩

/-- Witness for C1: the samples encoding the frame `[40, 2, 23, 5, 70]`. -/
theorem decodeLoop_bits_msb_first_witness :
    (∀ k, k < 80 → cyclesOfFrame ⟨40, 2, 23, 5, 70⟩ k ≠ _TIMEOUT) ∧
    ∃ data : Frame,
      decodeLoop (cyclesOfFrame ⟨40, 2, 23, 5, 70⟩) 40 0 Frame.zero = (true, data) ∧
      data.IsBytes ∧
      ∀ i, i < 40 →
        ((data.get (i / 8)).testBit (7 - i % 8)
          = decide (cyclesOfFrame ⟨40, 2, 23, 5, 70⟩ (2 * i + 1)
              > cyclesOfFrame ⟨40, 2, 23, 5, 70⟩ (2 * i))) ∧
        (cyclesOfFrame ⟨40, 2, 23, 5, 70⟩ (2 * i + 1) = cyclesOfFrame ⟨40, 2, 23, 5, 70⟩ (2 * i) →
          (data.get (i / 8)).testBit (7 - i % 8) = false) :=
  ⟨by decide, decodeLoop_bits_msb_first _ (by decide)⟩

/-! ## The pulse meter -/

theorem Wire.polled_one (line : Nat → Bool) (w : Wire) :
    (gpiod_line_get_value line w).2 = w.polled 1 := rfl

theorem Wire.polled_succ (w : Wire) (n : Nat) : (w.polled 1).polled n = w.polled (n + 1) := by
  simp only [Wire.polled, List.replicate_succ', List.append_assoc, Wire.mk.injEq]
  constructor
  · omega
  · simp

/-- The loop when the level changes after `n` polls at the target level: it
returns the counter advanced by `n`, after `n + 1` reads. -/
theorem expectPulseLoop_change (line : Nat → Bool) (level : Bool) (mc : Nat)
    (hmc : mc < 2 ^ 32) :
    ∀ (n fuel count : Nat) (w : Wire), n < fuel → count + n ≤ mc →
      (∀ k, k < n → line (w.polls + k) = level) → line (w.polls + n) ≠ level →
      expectPulseLoop line level mc fuel count w = some (count + n, w.polled (n + 1)) := by
  intro n
  induction n with
  | zero =>
    intro fuel count w hf _ _ hch
    obtain ⟨f, rfl⟩ : ∃ f, fuel = f + 1 := ⟨fuel - 1, by omega⟩
    have h0 : ¬ line w.polls = level := by simpa using hch
    simp [expectPulseLoop, gpiod_line_get_value, h0, Wire.polled]
  | succ n ih =>
    intro fuel count w hf hc hlv hch
    obtain ⟨f, rfl⟩ : ∃ f, fuel = f + 1 := ⟨fuel - 1, by omega⟩
    have h0 : line w.polls = level := by simpa using hlv 0 (by omega)
    have hlt : ¬ count ≥ mc := by omega
    have hmod : (count + 1) % 2 ^ 32 = count + 1 := Nat.mod_eq_of_lt (by omega)
    have hrec := ih f (count + 1) (w.polled 1) (by omega) (by omega)
      (fun k hk => by
        have := hlv (k + 1) (by omega)
        simpa [Wire.polled, Nat.add_assoc, Nat.add_comm 1 k] using this)
      (by simpa [Wire.polled, Nat.add_assoc, Nat.add_comm 1 n] using hch)
    rw [expectPulseLoop]
    simp only [gpiod_line_get_value, h0, if_true, hlt, if_false, hmod]
    change expectPulseLoop line level mc f (count + 1) (w.polled 1) = _
    rw [hrec, Wire.polled_succ]
    congr 2
    omega

/-- The loop when the line stays at the target level: with the counter `m`
short of `_maxcycles` it returns the sentinel after `m + 1` reads. -/
theorem expectPulseLoop_stuck (line : Nat → Bool) (level : Bool) (mc : Nat)
    (hmc : mc < 2 ^ 32) :
    ∀ (m fuel count : Nat) (w : Wire), m < fuel → count + m = mc →
      (∀ k, k ≤ m → line (w.polls + k) = level) →
      expectPulseLoop line level mc fuel count w = some (_TIMEOUT, w.polled (m + 1)) := by
  intro m
  induction m with
  | zero =>
    intro fuel count w hf hc hlv
    obtain ⟨f, rfl⟩ : ∃ f, fuel = f + 1 := ⟨fuel - 1, by omega⟩
    have h0 : line w.polls = level := by simpa using hlv 0 (by omega)
    have hge : count ≥ mc := by omega
    simp [expectPulseLoop, gpiod_line_get_value, h0, hge, Wire.polled]
  | succ m ih =>
    intro fuel count w hf hc hlv
    obtain ⟨f, rfl⟩ : ∃ f, fuel = f + 1 := ⟨fuel - 1, by omega⟩
    have h0 : line w.polls = level := by simpa using hlv 0 (by omega)
    have hlt : ¬ count ≥ mc := by omega
    have hmod : (count + 1) % 2 ^ 32 = count + 1 := Nat.mod_eq_of_lt (by omega)
    have hrec := ih f (count + 1) (w.polled 1) (by omega) (by omega)
      (fun k hk => by
        have := hlv (k + 1) (by omega)
        simpa [Wire.polled, Nat.add_assoc, Nat.add_comm 1 k] using this)
    rw [expectPulseLoop]
    simp only [gpiod_line_get_value, h0, if_true, hlt, if_false, hmod]
    change expectPulseLoop line level mc f (count + 1) (w.polled 1) = _
    rw [hrec, Wire.polled_succ]

/-- The loop always returns: `_maxcycles - count + 1` iterations are enough. -/
theorem expectPulseLoop_returns (line : Nat → Bool) (level : Bool) (mc : Nat)
    (hmc : mc < 2 ^ 32) :
    ∀ (fuel count : Nat) (w : Wire), count ≤ mc → mc - count < fuel →
      ∃ v w2, expectPulseLoop line level mc fuel count w = some (v, w2) := by
  intro fuel
  induction fuel with
  | zero => intro count w _ hf; omega
  | succ f ih =>
    intro count w hc hf
    rw [expectPulseLoop]
    by_cases h0 : (gpiod_line_get_value line w).1 = level
    · by_cases hge : count ≥ mc
      · exact ⟨_TIMEOUT, (gpiod_line_get_value line w).2, by simp only [h0, hge, if_true]⟩
      · have hmod : (count + 1) % 2 ^ 32 = count + 1 := Nat.mod_eq_of_lt (by omega)
        obtain ⟨v, w2, h⟩ := ih (count + 1) (gpiod_line_get_value line w).2 (by omega) (by omega)
        exact ⟨v, w2, by simp only [h0, hge, if_true, if_false, hmod, h]⟩
    · exact ⟨count, (gpiod_line_get_value line w).2, by simp only [h0, if_false]⟩

/-- The function `expectPulse` always returns. -/
theorem expectPulse_returns (line : Nat → Bool) (mc : Nat) (hmc : mc < 2 ^ 32)
    (level : Bool) (w : Wire) :
    ∃ v w2, expectPulse line mc level w = some (v, w2) :=
  expectPulseLoop_returns line level mc hmc (mc + 1) 0 w (by omega) (by omega)

/-- More iterations allowed do not change what the loop returns. -/
theorem expectPulseLoop_fuel_mono (line : Nat → Bool) (level : Bool) (mc : Nat) :
    ∀ (fuel extra count : Nat) (w : Wire) (r : Nat × Wire),
      expectPulseLoop line level mc fuel count w = some r →
      expectPulseLoop line level mc (fuel + extra) count w = some r := by
  intro fuel
  induction fuel with
  | zero => intro extra count w r h; simp [expectPulseLoop] at h
  | succ f ih =>
    intro extra count w r h
    rw [Nat.add_right_comm, expectPulseLoop]
    rw [expectPulseLoop] at h
    by_cases h0 : (gpiod_line_get_value line w).1 = level
    · by_cases hge : count ≥ mc
      · simpa [h0, hge] using h
      · simp only [h0, hge, if_true, if_false] at h ⊢
        exact ih extra _ _ r h
    · simpa [h0] using h

/-- C7. When the line reads the target level on its first `n` polls and the
opposite level on the next one, with `n` below the timeout bound, `expectPulse`
returns exactly `n` after exactly `n + 1` reads of the line. -/
theorem expectPulse_measures (line : Nat → Bool) (mc : Nat) (level : Bool) (n : Nat)
    (w : Wire) (hmc : mc < 2 ^ 32) (hn : n < mc)
    (hlv : ∀ k, k < n → line (w.polls + k) = level)
    (hch : line (w.polls + n) = !level) :
    ∃ w2, expectPulse line mc level w = some (n, w2) ∧ w2.polls = w.polls + (n + 1) ∧
      w2.log = List.replicate (n + 1) Call.line_get_value ++ w.log := by
  have hne : line (w.polls + n) ≠ level := by
    rw [hch]; cases level <;> simp
  have h := expectPulseLoop_change line level mc hmc n (mc + 1) 0 w (by omega) (by omega) hlv hne
  rw [Nat.zero_add] at h
  exact ⟨_, h, rfl, rfl⟩

/-- Witness for C7: three low polls, then a high one (and, in the second
part, a high first poll, giving 0). -/
theorem expectPulse_measures_witness :
    (∃ w2, expectPulse (lineOf [false, false, false, true]) 5 false Wire.init = some (3, w2) ∧
      w2.polls = Wire.init.polls + (3 + 1) ∧
      w2.log = List.replicate (3 + 1) Call.line_get_value ++ Wire.init.log) ∧
    (∃ w2, expectPulse (lineOf [true]) 5 false Wire.init = some (0, w2) ∧
      w2.polls = Wire.init.polls + (0 + 1) ∧
      w2.log = List.replicate (0 + 1) Call.line_get_value ++ Wire.init.log) :=
  ⟨expectPulse_measures (lineOf [false, false, false, true]) 5 false 3 Wire.init
      (by decide) (by decide) (by decide) (by decide),
   expectPulse_measures (lineOf [true]) 5 false 0 Wire.init
      (by decide) (by decide) (by decide) (by decide)⟩

/-- C6 as stated fails: with `_maxcycles = 3` and a line stuck at the target
level, the sentinel comes after 4 reads of the line, not after 3. -/
theorem expectPulse_stuck_reads_counterexample :
    (expectPulse (fun _ => false) 3 false Wire.init).map (fun r => (r.1, r.2.polls))
        = some (_TIMEOUT, 4) ∧
      ¬ ((expectPulse (fun _ => false) 3 false Wire.init).map (fun r => r.2.polls)
          = some (Wire.init.polls + 3)) := by
  decide

/-- C6, amended. When the line reads the target level on every poll,
`expectPulse` returns the timeout sentinel after exactly `_maxcycles + 1` reads
of the line. -/
theorem expectPulse_stuck_reads (line : Nat → Bool) (mc : Nat) (level : Bool) (w : Wire)
    (hmc : mc < 2 ^ 32) (hlv : ∀ k, line (w.polls + k) = level) :
    ∃ w2, expectPulse line mc level w = some (_TIMEOUT, w2) ∧ w2.polls = w.polls + (mc + 1) ∧
      w2.log = List.replicate (mc + 1) Call.line_get_value ++ w.log :=
  ⟨_, expectPulseLoop_stuck line level mc hmc mc (mc + 1) 0 w (by omega) (by omega)
    (fun k _ => hlv k), rfl, rfl⟩

/-- Witness for the amended C6: `_maxcycles = 3`, a line stuck low. -/
theorem expectPulse_stuck_reads_witness :
    ∃ w2, expectPulse (fun _ => false) 3 false Wire.init = some (_TIMEOUT, w2) ∧
      w2.polls = Wire.init.polls + (3 + 1) ∧
      w2.log = List.replicate (3 + 1) Call.line_get_value ++ Wire.init.log :=
  expectPulse_stuck_reads (fun _ => false) 3 false Wire.init (by decide) (fun _ => rfl)

/-! ## `readDHT` in terms of the samples -/

/-- The capture loop always returns. -/
theorem captureLoop_returns (line : Nat → Bool) (mc : Nat) (hmc : mc < 2 ^ 32) :
    ∀ (n i : Nat) (cycles : Nat → Nat) (w : Wire),
      ∃ c w2, captureLoop line mc n i cycles w = some (c, w2) := by
  intro n
  induction n with
  | zero => intro i cycles w; exact ⟨cycles, w, rfl⟩
  | succ n ih =>
    intro i cycles w
    obtain ⟨lo, u1, h1⟩ := expectPulse_returns line mc hmc false w
    obtain ⟨hi, u2, h2⟩ := expectPulse_returns line mc hmc true u1
    obtain ⟨c, u3, h3⟩ := ih (i + 2) (setCycle (setCycle cycles i lo) (i + 1) hi) u2
    exact ⟨c, u3, by simp only [captureLoop, h1, h2, h3]⟩

/-- The three stages of sampling always return. -/
theorem pulses_return (line : Nat → Bool) (mc : Nat) (hmc : mc < 2 ^ 32) (w : Wire) :
    ∃ aL u1 aH u2 cycles u3,
      ackLowPulse line mc w = some (aL, u1) ∧ ackHighPulse line mc w = some (aH, u2) ∧
      capturePulses line mc w = some (cycles, u3) := by
  obtain ⟨aL, u1, h1⟩ := expectPulse_returns line mc hmc false (startSignal w)
  obtain ⟨aH, u2, h2⟩ := expectPulse_returns line mc hmc true u1
  obtain ⟨c, u3, h3⟩ := captureLoop_returns line mc hmc 40 0 (fun _ => 0)
    ((u2.call Call.line_release).call Call.line_request_input)
  have e1 : ackLowPulse line mc w = some (aL, u1) := h1
  have e2 : ackHighPulse line mc w = some (aH, u2) := by
    simp only [ackHighPulse, e1, Option.some_bind, h2]
  have e3 : capturePulses line mc w = some (c, u3) := by
    simp only [capturePulses, e2, Option.some_bind, h3]
  exact ⟨aL, u1, aH, u2, c, u3, e1, e2, e3⟩

/-- The result and the globals of `readDHT` are `outcomeOf` the samples taken. -/
theorem readDHT_outcome (line : Nat → Bool) (mc : Nat) (g : Globals) (w : Wire)
    (aL aH : Nat) (cycles : Nat → Nat) (u1 u2 u3 : Wire)
    (h1 : ackLowPulse line mc w = some (aL, u1))
    (h2 : ackHighPulse line mc w = some (aH, u2))
    (h3 : capturePulses line mc w = some (cycles, u3)) :
    ∃ w2, readDHT line mc g w
      = some ((outcomeOf aL aH cycles g).1, (outcomeOf aL aH cycles g).2, w2) := by
  have e1 : expectPulse line mc false (startSignal w) = some (aL, u1) := h1
  have e2 : expectPulse line mc true u1 = some (aH, u2) := by
    simpa only [ackHighPulse, h1, Option.some_bind] using h2
  have e3 : captureLoop line mc 40 0 (fun _ => 0)
      ((u2.call Call.line_release).call Call.line_request_input) = some (cycles, u3) := by
    simpa only [capturePulses, h2, Option.some_bind] using h3
  unfold readDHT outcomeOf
  rw [e1]
  by_cases ha : aL = _TIMEOUT
  · exact ⟨u1, by simp only [ha, if_true]⟩
  · simp only [ha, if_false, e2]
    by_cases hb : aH = _TIMEOUT
    · exact ⟨u2, by simp only [hb, if_true]⟩
    · simp only [hb, if_false, e3]
      generalize decodeLoop cycles 40 0 Frame.zero = d
      obtain ⟨ok, data⟩ := d
      cases ok
      · exact ⟨_, rfl⟩
      · by_cases hk : checksumOk data = true
        · simp only [hk, if_true]
          exact ⟨_, rfl⟩
        · simp only [hk, if_false]
          exact ⟨_, rfl⟩

/-- The decode loop runs to the end exactly when no sample it visits is the
sentinel. -/
theorem decodeLoop_completes_iff (cycles : Nat → Nat) :
    ∀ (n i : Nat) (data : Frame),
      (decodeLoop cycles n i data).1 = true ↔
        ∀ k, 2 * i ≤ k → k < 2 * (i + n) → cycles k ≠ _TIMEOUT := by
  intro n
  induction n with
  | zero =>
    intro i data
    simp only [decodeLoop, true_iff]
    intro k h1 h2
    omega
  | succ n ih =>
    intro i data
    rw [decodeLoop]
    by_cases hto : cycles (2 * i) = _TIMEOUT ∨ cycles (2 * i + 1) = _TIMEOUT
    · simp only [hto, if_true]
      constructor
      · intro h; cases h
      · intro h
        rcases hto with h0 | h0
        · exact absurd h0 (h _ (by omega) (by omega))
        · exact absurd h0 (h _ (by omega) (by omega))
    · simp only [hto, if_false]
      rw [ih]
      have hto2 := not_or.mp hto
      constructor
      · intro h k h1 h2
        by_cases e0 : k = 2 * i
        · rw [e0]; exact hto2.1
        · by_cases e1 : k = 2 * i + 1
          · rw [e1]; exact hto2.2
          · exact h k (by omega) (by omega)
      · intro h k h1 h2
        exact h k (by omega) (by omega)

/-- The checksum test of line 191, with the mask written as a remainder. -/
theorem checksumOk_iff (data : Frame) :
    checksumOk data = true ↔ data.b4 = (data.b0 + data.b1 + data.b2 + data.b3) % 256 := by
  have h := Nat.and_pow_two_sub_one_eq_mod (data.b0 + data.b1 + data.b2 + data.b3) 8
  have h2 : (data.b0 + data.b1 + data.b2 + data.b3) &&& 0xFF
      = (data.b0 + data.b1 + data.b2 + data.b3) % 256 := h
  simp only [checksumOk, beq_iff_eq, h2]

/-- C2. `readDHT` returns, and it returns `true` if and only if none of the 82
samples (acknowledgment low, acknowledgment high, 80 capture samples) is the
timeout sentinel and the decoded frame satisfies
`frame[4] = (frame[0] + frame[1] + frame[2] + frame[3]) mod 256`; otherwise it
returns `false`. -/
theorem readDHT_true_iff (line : Nat → Bool) (mc : Nat) (g : Globals) (w : Wire)
    (hmc : mc < 2 ^ 32) :
    ∃ aL u1 aH u2 cycles u3 r g2 w2,
      ackLowPulse line mc w = some (aL, u1) ∧ ackHighPulse line mc w = some (aH, u2) ∧
      capturePulses line mc w = some (cycles, u3) ∧
      readDHT line mc g w = some (r, g2, w2) ∧
      (r = true ↔
        aL ≠ _TIMEOUT ∧ aH ≠ _TIMEOUT ∧ (∀ k, k < 80 → cycles k ≠ _TIMEOUT) ∧
        (decodeLoop cycles 40 0 Frame.zero).2.b4
          = ((decodeLoop cycles 40 0 Frame.zero).2.b0 + (decodeLoop cycles 40 0 Frame.zero).2.b1
              + (decodeLoop cycles 40 0 Frame.zero).2.b2
              + (decodeLoop cycles 40 0 Frame.zero).2.b3) % 256) := by
  obtain ⟨aL, u1, aH, u2, cycles, u3, h1, h2, h3⟩ := pulses_return line mc hmc w
  obtain ⟨w2, hr⟩ := readDHT_outcome line mc g w aL aH cycles u1 u2 u3 h1 h2 h3
  refine ⟨aL, u1, aH, u2, cycles, u3, _, _, w2, h1, h2, h3, hr, ?_⟩
  · have hcomp := decodeLoop_completes_iff cycles 40 0 Frame.zero
    unfold outcomeOf
    by_cases ha : aL = _TIMEOUT
    · simp [ha]
    · by_cases hb : aH = _TIMEOUT
      · simp [ha, hb]
      · simp only [ha, hb, if_false, ne_eq, not_false_eq_true, true_and]
        rcases hd : decodeLoop cycles 40 0 Frame.zero with ⟨ok, data⟩
        rw [hd] at hcomp
        cases ok
        · have hno : ¬ ∀ k, k < 80 → cycles k ≠ _TIMEOUT := by
            intro hall
            have := hcomp.mpr (fun k _ hk => hall k (by omega))
            cases this
          simp [hno]
        · have hall : ∀ k, k < 80 → cycles k ≠ _TIMEOUT :=
            fun k hk => hcomp.mp rfl k (by omega) (by omega)
          by_cases hk : checksumOk data = true
          · have := (checksumOk_iff data).mp hk
            simp only [hk, if_true, true_iff]
            exact ⟨hall, this⟩
          · have hne : ¬ data.b4 = (data.b0 + data.b1 + data.b2 + data.b3) % 256 :=
              fun e => hk ((checksumOk_iff data).mpr e)
            simp [hk, hne]

/-- Witness for C2: the simulated exchange for the frame `[40, 2, 23, 5, 1]`,
on which `readDHT` returns `false`. -/
theorem readDHT_true_iff_witness :
    (1000 < 2 ^ 32) ∧
    (∃ aL u1 aH u2 cycles u3 r g2 w2,
      ackLowPulse (lineOfFrame ⟨40, 2, 23, 5, 1⟩) 1000 Wire.init = some (aL, u1) ∧
      ackHighPulse (lineOfFrame ⟨40, 2, 23, 5, 1⟩) 1000 Wire.init = some (aH, u2) ∧
      capturePulses (lineOfFrame ⟨40, 2, 23, 5, 1⟩) 1000 Wire.init = some (cycles, u3) ∧
      readDHT (lineOfFrame ⟨40, 2, 23, 5, 1⟩) 1000 ⟨Frame.zero, false⟩ Wire.init
        = some (r, g2, w2) ∧
      (r = true ↔
        aL ≠ _TIMEOUT ∧ aH ≠ _TIMEOUT ∧ (∀ k, k < 80 → cycles k ≠ _TIMEOUT) ∧
        (decodeLoop cycles 40 0 Frame.zero).2.b4
          = ((decodeLoop cycles 40 0 Frame.zero).2.b0 + (decodeLoop cycles 40 0 Frame.zero).2.b1
              + (decodeLoop cycles 40 0 Frame.zero).2.b2
              + (decodeLoop cycles 40 0 Frame.zero).2.b3) % 256)) ∧
    (readDHT (lineOfFrame ⟨40, 2, 23, 5, 1⟩) 1000 ⟨Frame.zero, false⟩ Wire.init).map
        (fun r => (r.1, r.2.1.data)) = some (false, ⟨40, 2, 23, 5, 1⟩) :=
  ⟨by decide,
    readDHT_true_iff (lineOfFrame ⟨40, 2, 23, 5, 1⟩) 1000 ⟨Frame.zero, false⟩ Wire.init
      (by decide),
    by decide⟩

/-! ## The translation of the buffer -/

/-- The test `data[3] & 0x80` of `readTemperature` looks at bit 7 of the byte. -/
theorem and_0x80_ne_zero_iff (x : Nat) : x &&& 0x80 ≠ 0 ↔ x.testBit 7 = true := by
  have h128 : ∀ i, (128 : Nat).testBit i = decide (7 = i) := fun i => @Nat.testBit_two_pow 7 i
  constructor
  · intro h
    by_contra hb
    apply h
    apply Nat.eq_of_testBit_eq
    intro i
    rw [Nat.testBit_and, h128, Nat.zero_testBit]
    by_cases hi : 7 = i
    · subst hi
      simp only [Bool.not_eq_true] at hb
      simp [hb]
    · simp [hi]
  · intro h h0
    have h7 : (x &&& 0x80).testBit 7 = false := by rw [h0, Nat.zero_testBit]
    rw [Nat.testBit_and, h, h128] at h7
    simp at h7

/-- The samples of a run, unpacked. -/
theorem pulses_of_samples (line : Nat → Bool) (mc : Nat) (w : Wire) (aL aH : Nat)
    (d : Bool × Frame)
    (h1 : ackLowSample line mc w = some aL) (h2 : ackHighSample line mc w = some aH)
    (h3 : decodedFrame line mc w = some d) :
    ∃ u1 u2 cycles u3, ackLowPulse line mc w = some (aL, u1) ∧
      ackHighPulse line mc w = some (aH, u2) ∧ capturePulses line mc w = some (cycles, u3) ∧
      decodeLoop cycles 40 0 Frame.zero = d := by
  simp only [ackLowSample, Option.map_eq_some', Prod.exists, exists_and_right,
    exists_eq_right] at h1
  simp only [ackHighSample, Option.map_eq_some', Prod.exists, exists_and_right,
    exists_eq_right] at h2
  simp only [decodedFrame, Option.map_eq_some', Prod.exists] at h3
  obtain ⟨u1, e1⟩ := h1
  obtain ⟨u2, e2⟩ := h2
  obtain ⟨cycles, u3, e3, e4⟩ := h3
  exact ⟨u1, u2, cycles, u3, e1, e2, e3, e4⟩

/-- C3 as stated fails: in the simulated exchange for `[40, 2, 23, 5, 0]` neither
acknowledgment pulse times out and the samples decode to that frame, yet
`readDHT` returns `false`. -/
theorem readDHT_frame_40_2_23_5_0_counterexample :
    ackLowSample (lineOfFrame ⟨40, 2, 23, 5, 0⟩) 1000 Wire.init = some 4 ∧
    ackHighSample (lineOfFrame ⟨40, 2, 23, 5, 0⟩) 1000 Wire.init = some 4 ∧
    decodedFrame (lineOfFrame ⟨40, 2, 23, 5, 0⟩) 1000 Wire.init
      = some (true, ⟨40, 2, 23, 5, 0⟩) ∧
    (readDHT (lineOfFrame ⟨40, 2, 23, 5, 0⟩) 1000 ⟨Frame.zero, false⟩ Wire.init).map Prod.fst
      = some false := by
  decide

/-- C3, amended. When neither acknowledgment pulse times out and the 80 capture
samples decode to a frame `[40, 2, 23, 5, c]`, `readDHT` returns `true` exactly
when `c = 70` (so `false` for `c = 0`); the buffer then holds the frame, whose
translation, taken in exact rational arithmetic, is humidity 40.2 and
temperature 23.5. -/
theorem readDHT_frame_40_2_23_5 (line : Nat → Bool) (mc : Nat) (g : Globals) (w : Wire)
    (aL aH c : Nat)
    (h1 : ackLowSample line mc w = some aL) (ha : aL ≠ _TIMEOUT)
    (h2 : ackHighSample line mc w = some aH) (hb : aH ≠ _TIMEOUT)
    (h3 : decodedFrame line mc w = some (true, ⟨40, 2, 23, 5, c⟩)) :
    ∃ w2, readDHT line mc g w
        = some (decide (c = 70), ⟨⟨40, 2, 23, 5, c⟩, decide (c = 70)⟩, w2) ∧
      readHumidity ⟨40, 2, 23, 5, c⟩ = 201 / 5 ∧
      readTemperature ⟨40, 2, 23, 5, c⟩ = 47 / 2 := by
  obtain ⟨u1, u2, cycles, u3, e1, e2, e3, e4⟩ := pulses_of_samples line mc w aL aH _ h1 h2 h3
  obtain ⟨w2, hr⟩ := readDHT_outcome line mc g w aL aH cycles u1 u2 u3 e1 e2 e3
  have ho : outcomeOf aL aH cycles g
      = (decide (c = 70), ⟨⟨40, 2, 23, 5, c⟩, decide (c = 70)⟩) := by
    unfold outcomeOf
    rw [if_neg ha, if_neg hb, e4]
    by_cases hc : c = 70
    · subst hc; rfl
    · have hk : checksumOk ⟨40, 2, 23, 5, c⟩ = false := by
        simpa [checksumOk] using hc
      simp [hk, hc]
  rw [ho] at hr
  refine ⟨w2, hr, ?_, ?_⟩
  · norm_num [readHumidity]
  · have h80 : (5 &&& 0x80 : Nat) = 0 := by decide
    have h0f : (5 &&& 0x0f : Nat) = 5 := by decide
    simp only [readTemperature, h80, h0f]
    norm_num

/-- Witness for the amended C3: the simulated exchanges for `[40, 2, 23, 5, 0]`
(rejected) and `[40, 2, 23, 5, 70]` (accepted). -/
theorem readDHT_frame_40_2_23_5_witness :
    (∃ w2, readDHT (lineOfFrame ⟨40, 2, 23, 5, 0⟩) 1000 ⟨Frame.zero, false⟩ Wire.init
        = some (decide (0 = 70), ⟨⟨40, 2, 23, 5, 0⟩, decide (0 = 70)⟩, w2) ∧
      readHumidity ⟨40, 2, 23, 5, 0⟩ = 201 / 5 ∧
      readTemperature ⟨40, 2, 23, 5, 0⟩ = 47 / 2) ∧
    (∃ w2, readDHT (lineOfFrame ⟨40, 2, 23, 5, 70⟩) 1000 ⟨Frame.zero, false⟩ Wire.init
        = some (decide (70 = 70), ⟨⟨40, 2, 23, 5, 70⟩, decide (70 = 70)⟩, w2) ∧
      readHumidity ⟨40, 2, 23, 5, 70⟩ = 201 / 5 ∧
      readTemperature ⟨40, 2, 23, 5, 70⟩ = 47 / 2) :=
  ⟨readDHT_frame_40_2_23_5 (lineOfFrame ⟨40, 2, 23, 5, 0⟩) 1000 ⟨Frame.zero, false⟩ Wire.init
      4 4 0 (by decide) (by decide) (by decide) (by decide) (by decide),
   readDHT_frame_40_2_23_5 (lineOfFrame ⟨40, 2, 23, 5, 70⟩) 1000 ⟨Frame.zero, false⟩ Wire.init
      4 4 70 (by decide) (by decide) (by decide) (by decide) (by decide)⟩

/-- C4 as stated fails: for `[40, 2, 23, 0x85, 0]`, whose byte 3 has bit 7 set,
`readTemperature` gives -23.5, not `-1 - (23 + 5/10) = -24.5`. -/
theorem readTemperature_sign_counterexample :
    Nat.testBit 0x85 7 = true ∧
    readTemperature ⟨40, 2, 23, 0x85, 0⟩ = -47 / 2 ∧
    ¬ (readTemperature ⟨40, 2, 23, 0x85, 0⟩
        = -1 - ((23 : ℚ) + ((0x85 &&& 0x0F : Nat) : ℚ) / 10)) := by
  have h80 : (0x85 &&& 0x80 : Nat) = 128 := by decide
  have h0f : (0x85 &&& 0x0f : Nat) = 5 := by decide
  have h0F : (0x85 &&& 0x0F : Nat) = 5 := by decide
  refine ⟨by decide, ?_, ?_⟩
  · simp only [readTemperature, h80, h0f]
    norm_num
  · simp only [readTemperature, h80, h0f, h0F]
    norm_num

/-- C4, amended. For every frame whose byte 3 has bit 7 set, `readTemperature`
equals `-1 - frame[2] + (frame[3] & 0x0F) / 10`: the tenths are added after the
negation. -/
theorem readTemperature_sign (f : Frame) (h : f.b3.testBit 7 = true) :
    readTemperature f = -1 - (f.b2 : ℚ) + ((f.b3 &&& 0x0F : Nat) : ℚ) / 10 := by
  have hb := (and_0x80_ne_zero_iff f.b3).mpr h
  simp only [readTemperature, hb, ne_eq, not_false_eq_true, if_true]
  ring

/-- Witness for the amended C4: the frame `[40, 2, 23, 0x85, 0]` gives -23.5. -/
theorem readTemperature_sign_witness :
    Nat.testBit 0x85 7 = true ∧
    readTemperature ⟨40, 2, 23, 0x85, 0⟩
      = -1 - ((23 : Nat) : ℚ) + ((0x85 &&& 0x0F : Nat) : ℚ) / 10 ∧
    -1 - ((23 : Nat) : ℚ) + ((5 : Nat) : ℚ) / 10 = -47 / 2 :=
  ⟨by decide, readTemperature_sign ⟨40, 2, 23, 0x85, 0⟩ (by decide), by norm_num⟩

/-- C5. For every frame whose byte 3 has bit 7 clear, `readHumidity` equals
`frame[0] + frame[1] / 10` and `readTemperature` equals
`frame[2] + (frame[3] & 0x0F) / 10`. -/
theorem translation_unsigned (f : Frame) (h : f.b3.testBit 7 = false) :
    readHumidity f = (f.b0 : ℚ) + (f.b1 : ℚ) / 10 ∧
    readTemperature f = (f.b2 : ℚ) + ((f.b3 &&& 0x0F : Nat) : ℚ) / 10 := by
  have hb : ¬ (f.b3 &&& 0x80 ≠ 0) := by
    rw [and_0x80_ne_zero_iff, h]
    simp
  constructor
  · simp only [readHumidity]
    ring
  · simp only [readTemperature, hb, if_false]
    ring

/-- Witness for C5: `[0, 0, 0, 0, 0]` gives humidity 0 and temperature 0, and
`[40, 2, 23, 5, 0]` gives humidity 40.2 and temperature 23.5. -/
theorem translation_unsigned_witness :
    (Nat.testBit 0 7 = false ∧ readHumidity ⟨0, 0, 0, 0, 0⟩ = 0 ∧
      readTemperature ⟨0, 0, 0, 0, 0⟩ = 0) ∧
    (Nat.testBit 5 7 = false ∧ readHumidity ⟨40, 2, 23, 5, 0⟩ = 201 / 5 ∧
      readTemperature ⟨40, 2, 23, 5, 0⟩ = 47 / 2) := by
  have h0 := translation_unsigned ⟨0, 0, 0, 0, 0⟩ (by decide)
  have h1 := translation_unsigned ⟨40, 2, 23, 5, 0⟩ (by decide)
  have e0 : (0 &&& 0x0F : Nat) = 0 := by decide
  have e5 : (5 &&& 0x0F : Nat) = 5 := by decide
  simp only [e0, e5] at h0 h1
  refine ⟨⟨by decide, ?_, ?_⟩, ⟨by decide, ?_, ?_⟩⟩
  · rw [h0.1]; norm_num
  · rw [h0.2]; norm_num
  · rw [h1.1]; norm_num
  · rw [h1.2]; norm_num


/-! ## Release of the line -/

/-- C8 fails on the two acknowledgment timeouts.  With a line stuck low
(acknowledgment-low timeout) and with a line that goes high and stays high
(acknowledgment-high timeout) `readDHT` returns `false` and the last call it
made is a read of the line: no `gpiod_line_release` and no `gpiod_chip_close`
follow.  With a line that stops after the acknowledgment (capture timeout) and
in the exchange for `[40, 2, 23, 5, 70]` (success) the last two calls are the
release and the close. -/
theorem readDHT_ack_timeout_no_release :
    readDHT (fun _ => false) 3 ⟨Frame.zero, true⟩ Wire.init
      = some (false, ⟨Frame.zero, false⟩,
          ⟨4, [Call.line_get_value, Call.line_get_value, Call.line_get_value,
            Call.line_get_value, Call.line_request_input, Call.line_release,
            Call.line_request_input_flags, Call.line_release, Call.sleep_for,
            Call.line_request_output, Call.line_release, Call.line_request_input_flags,
            Call.chip_get_line, Call.chip_open_by_name]⟩) ∧
    (readDHT (lineOf [true]) 3 ⟨Frame.zero, true⟩ Wire.init).map
        (fun r => (r.1, r.2.2.log.take 6))
      = some (false, [Call.line_get_value, Call.line_get_value, Call.line_get_value,
          Call.line_get_value, Call.line_get_value, Call.line_request_input]) ∧
    (readDHT (lineOf (levelsOf [(false, 2), (true, 2)])) 3 ⟨Frame.zero, true⟩ Wire.init).map
        (fun r => (r.1, r.2.2.log.take 3))
      = some (false, [Call.chip_close, Call.line_release, Call.line_get_value]) ∧
    (readDHT (lineOfFrame ⟨40, 2, 23, 5, 70⟩) 1000 ⟨Frame.zero, false⟩ Wire.init).map
        (fun r => (r.1, r.2.2.log.take 3))
      = some (true, [Call.chip_close, Call.line_release, Call.line_get_value]) := by
  decide

/-! ## Independence from the buffer -/

/-- The decode loop reads only the entries of `cycles` that it visits. -/
theorem decodeLoop_congr (c1 c2 : Nat → Nat) :
    ∀ (n i : Nat) (data : Frame),
      (∀ k, 2 * i ≤ k → k < 2 * (i + n) → c1 k = c2 k) →
      decodeLoop c1 n i data = decodeLoop c2 n i data := by
  intro n
  induction n with
  | zero => intro i data _; rfl
  | succ n ih =>
    intro i data h
    rw [decodeLoop, decodeLoop, h (2 * i) (by omega) (by omega),
      h (2 * i + 1) (by omega) (by omega)]
    by_cases hto : c2 (2 * i) = _TIMEOUT ∨ c2 (2 * i + 1) = _TIMEOUT
    · simp only [hto, if_true]
    · simp only [hto, if_false]
      exact ih (i + 1) _ (fun k h1 h2 => h k (by omega) (by omega))

/-- The capture samples of a run, unpacked. -/
theorem pulses_of_capture (line : Nat → Bool) (mc : Nat) (w : Wire) (aL aH : Nat)
    (l : List Nat)
    (h1 : ackLowSample line mc w = some aL) (h2 : ackHighSample line mc w = some aH)
    (h3 : captureSamples line mc w = some l) :
    ∃ u1 u2 cycles u3, ackLowPulse line mc w = some (aL, u1) ∧
      ackHighPulse line mc w = some (aH, u2) ∧ capturePulses line mc w = some (cycles, u3) ∧
      samplesOf cycles = l := by
  simp only [ackLowSample, Option.map_eq_some', Prod.exists, exists_and_right,
    exists_eq_right] at h1
  simp only [ackHighSample, Option.map_eq_some', Prod.exists, exists_and_right,
    exists_eq_right] at h2
  simp only [captureSamples, Option.map_eq_some', Prod.exists] at h3
  obtain ⟨u1, e1⟩ := h1
  obtain ⟨u2, e2⟩ := h2
  obtain ⟨cycles, u3, e3, e4⟩ := h3
  exact ⟨u1, u2, cycles, u3, e1, e2, e3, e4⟩

/-- Equal sample lists give the same decode. -/
theorem decodeLoop_of_samplesOf (c1 c2 : Nat → Nat) (h : samplesOf c1 = samplesOf c2)
    (data : Frame) : decodeLoop c1 40 0 data = decodeLoop c2 40 0 data := by
  have hall : ∀ k, k ∈ List.range 80 → c1 k = c2 k := List.map_inj_left.mp h
  exact decodeLoop_congr c1 c2 40 0 data (fun k _ hk => hall k (List.mem_range.mpr (by omega)))

/-- What `outcomeOf` leaves in the globals. -/
theorem outcomeOf_shape (aL aH : Nat) (cycles : Nat → Nat) (g : Globals) :
    (outcomeOf aL aH cycles g).2.lastresult = (outcomeOf aL aH cycles g).1 ∧
    ((aL = _TIMEOUT ∨ aH = _TIMEOUT) →
      (outcomeOf aL aH cycles g).1 = false ∧ (outcomeOf aL aH cycles g).2.data = g.data) ∧
    (aL ≠ _TIMEOUT → aH ≠ _TIMEOUT →
      outcomeOf aL aH cycles g = outcomeOf aL aH cycles ⟨Frame.zero, false⟩) := by
  unfold outcomeOf
  by_cases ha : aL = _TIMEOUT
  · simp [ha]
  · by_cases hb : aH = _TIMEOUT
    · simp [ha, hb]
    · simp only [ha, hb, if_false, false_or, false_implies, ne_eq, not_false_eq_true,
        forall_true_left, and_true]
      generalize decodeLoop cycles 40 0 Frame.zero = d
      obtain ⟨ok, data⟩ := d
      cases ok
      · rfl
      · by_cases hk : checksumOk data = true
        · simp only [hk, if_true]
        · simp [hk]

/-- On the paths that pass the reset of line 145, that is when neither
acknowledgment pulse times out, two runs of `readDHT` that take the same pulse
samples return the same result and leave the same buffer, whatever the buffers
they started from. -/
theorem readDHT_reset_paths (line1 line2 : Nat → Bool) (mc1 mc2 : Nat) (g1 g2 : Globals)
    (w1 w2 : Wire) (aL aH : Nat) (l : List Nat)
    (h1 : ackLowSample line1 mc1 w1 = some aL) (k1 : ackLowSample line2 mc2 w2 = some aL)
    (ha : aL ≠ _TIMEOUT)
    (h2 : ackHighSample line1 mc1 w1 = some aH) (k2 : ackHighSample line2 mc2 w2 = some aH)
    (hb : aH ≠ _TIMEOUT)
    (h3 : captureSamples line1 mc1 w1 = some l) (k3 : captureSamples line2 mc2 w2 = some l) :
    ∃ r d x1 x2,
      readDHT line1 mc1 g1 w1 = some (r, ⟨d, r⟩, x1) ∧
      readDHT line2 mc2 g2 w2 = some (r, ⟨d, r⟩, x2) := by
  obtain ⟨u1, u2, c1, u3, e1, e2, e3, e4⟩ := pulses_of_capture line1 mc1 w1 aL aH l h1 h2 h3
  obtain ⟨v1, v2, c2, v3, f1, f2, f3, f4⟩ := pulses_of_capture line2 mc2 w2 aL aH l k1 k2 k3
  obtain ⟨x1, hr1⟩ := readDHT_outcome line1 mc1 g1 w1 aL aH c1 u1 u2 u3 e1 e2 e3
  obtain ⟨x2, hr2⟩ := readDHT_outcome line2 mc2 g2 w2 aL aH c2 v1 v2 v3 f1 f2 f3
  have hdec : decodeLoop c1 40 0 Frame.zero = decodeLoop c2 40 0 Frame.zero :=
    decodeLoop_of_samplesOf c1 c2 (e4.trans f4.symm) Frame.zero
  have hcyc : ∀ g, outcomeOf aL aH c1 g = outcomeOf aL aH c2 g := by
    intro g
    unfold outcomeOf
    rw [hdec]
  rw [hcyc] at hr1
  obtain ⟨s1, _, n1⟩ := outcomeOf_shape aL aH c2 g1
  obtain ⟨_, _, n2⟩ := outcomeOf_shape aL aH c2 g2
  have hsame : outcomeOf aL aH c2 g2 = outcomeOf aL aH c2 g1 := by
    rw [n1 ha hb, n2 ha hb]
  rw [hsame] at hr2
  refine ⟨(outcomeOf aL aH c2 g1).1, (outcomeOf aL aH c2 g1).2.data, x1, x2, ?_, ?_⟩
  · rw [hr1, ← s1]
  · rw [hr2, ← s1]

/-- C9 fails on the two acknowledgment timeouts.  With a line stuck low
(acknowledgment-low timeout) and with a line that goes high and stays high
(acknowledgment-high timeout), runs of `readDHT` started from the buffers
`[0, 0, 0, 0, 0]` and `[1, 2, 3, 4, 5]` return `false` and leave each buffer as it
was, so the buffers after the call differ: the reset of line 145 is skipped.  On
the paths that pass line 145, a capture timeout and the exchange for
`[40, 2, 23, 5, 70]`, both runs leave the same buffer. -/
theorem readDHT_ack_timeout_keeps_buffer :
    ((readDHT (fun _ => false) 3 ⟨Frame.zero, false⟩ Wire.init).map
        (fun r => (r.1, r.2.1.data)) = some (false, Frame.zero) ∧
      (readDHT (fun _ => false) 3 ⟨⟨1, 2, 3, 4, 5⟩, false⟩ Wire.init).map
        (fun r => (r.1, r.2.1.data)) = some (false, ⟨1, 2, 3, 4, 5⟩)) ∧
    ((readDHT (lineOf [true]) 3 ⟨Frame.zero, false⟩ Wire.init).map
        (fun r => (r.1, r.2.1.data)) = some (false, Frame.zero) ∧
      (readDHT (lineOf [true]) 3 ⟨⟨1, 2, 3, 4, 5⟩, false⟩ Wire.init).map
        (fun r => (r.1, r.2.1.data)) = some (false, ⟨1, 2, 3, 4, 5⟩)) ∧
    (⟨1, 2, 3, 4, 5⟩ : Frame) ≠ Frame.zero ∧
    ((readDHT (lineOf (levelsOf [(false, 4), (true, 4), (false, 3), (true, 5)])) 10
        ⟨Frame.zero, false⟩ Wire.init).map (fun r => (r.1, r.2.1.data))
        = some (false, ⟨1, 0, 0, 0, 0⟩) ∧
      (readDHT (lineOf (levelsOf [(false, 4), (true, 4), (false, 3), (true, 5)])) 10
        ⟨⟨1, 2, 3, 4, 5⟩, false⟩ Wire.init).map (fun r => (r.1, r.2.1.data))
        = some (false, ⟨1, 0, 0, 0, 0⟩)) ∧
    ((readDHT (lineOfFrame ⟨40, 2, 23, 5, 70⟩) 1000 ⟨Frame.zero, false⟩ Wire.init).map
        (fun r => (r.1, r.2.1.data)) = some (true, ⟨40, 2, 23, 5, 70⟩) ∧
      (readDHT (lineOfFrame ⟨40, 2, 23, 5, 70⟩) 1000 ⟨⟨1, 2, 3, 4, 5⟩, false⟩ Wire.init).map
        (fun r => (r.1, r.2.1.data)) = some (true, ⟨40, 2, 23, 5, 70⟩)) := by
  decide

/-! ## The checksum -/

set_option maxRecDepth 100000 in
/-- Flipping bit `k` of a byte adds or removes `2 ^ k`, and gives a byte. -/
theorem xor_bit_byte : ∀ x, x < 256 → ∀ k, k < 8 →
    (x ^^^ (1 <<< k) = x + 2 ^ k ∨ (x ^^^ (1 <<< k)) + 2 ^ k = x) ∧ x ^^^ (1 <<< k) < 256 := by
  decide

/-- The values of `2 ^ k` for a bit index of a byte. -/
theorem two_pow_bit_index (k : Nat) (hk : k < 8) :
    2 ^ k = 1 ∨ 2 ^ k = 2 ∨ 2 ^ k = 4 ∨ 2 ^ k = 8 ∨ 2 ^ k = 16 ∨ 2 ^ k = 32 ∨ 2 ^ k = 64 ∨
      2 ^ k = 128 := by
  have h : k = 0 ∨ k = 1 ∨ k = 2 ∨ k = 3 ∨ k = 4 ∨ k = 5 ∨ k = 6 ∨ k = 7 := by omega
  rcases h with e | e | e | e | e | e | e | e <;> subst e <;> decide

/-- C10. For every 5-byte frame that passes the checksum test of `readDHT` and
every one of the 40 bit positions, the frame with that single bit flipped fails
the checksum test. -/
theorem checksum_detects_single_bit_flip (f : Frame) (hb : f.IsBytes)
    (hok : checksumOk f = true) (p : Nat) (hp : p < 40) :
    checksumOk (flipBit f p) = false := by
  obtain ⟨h0, h1, h2, h3, h4⟩ := hb
  rw [checksumOk_iff] at hok
  rw [Bool.eq_false_iff, Ne, checksumOk_iff]
  have hk : p % 8 < 8 := Nat.mod_lt _ (by decide)
  have hpow := two_pow_bit_index (p % 8) hk
  have hq : p / 8 = 0 ∨ p / 8 = 1 ∨ p / 8 = 2 ∨ p / 8 = 3 ∨ p / 8 = 4 := by omega
  unfold flipBit
  rcases hq with e | e | e | e | e <;> rw [e]
  · have hx := (xor_bit_byte f.b0 h0 (p % 8) hk).1
    show ¬ f.b4 = ((f.b0 ^^^ (1 <<< (p % 8))) + f.b1 + f.b2 + f.b3) % 256
    generalize f.b0 ^^^ (1 <<< (p % 8)) = y at hx
    generalize 2 ^ (p % 8) = t at hx hpow
    omega
  · have hx := (xor_bit_byte f.b1 h1 (p % 8) hk).1
    show ¬ f.b4 = (f.b0 + (f.b1 ^^^ (1 <<< (p % 8))) + f.b2 + f.b3) % 256
    generalize f.b1 ^^^ (1 <<< (p % 8)) = y at hx
    generalize 2 ^ (p % 8) = t at hx hpow
    omega
  · have hx := (xor_bit_byte f.b2 h2 (p % 8) hk).1
    show ¬ f.b4 = (f.b0 + f.b1 + (f.b2 ^^^ (1 <<< (p % 8))) + f.b3) % 256
    generalize f.b2 ^^^ (1 <<< (p % 8)) = y at hx
    generalize 2 ^ (p % 8) = t at hx hpow
    omega
  · have hx := (xor_bit_byte f.b3 h3 (p % 8) hk).1
    show ¬ f.b4 = (f.b0 + f.b1 + f.b2 + (f.b3 ^^^ (1 <<< (p % 8)))) % 256
    generalize f.b3 ^^^ (1 <<< (p % 8)) = y at hx
    generalize 2 ^ (p % 8) = t at hx hpow
    omega
  · have hx := (xor_bit_byte f.b4 h4 (p % 8) hk).1
    show ¬ (f.b4 ^^^ (1 <<< (p % 8))) = (f.b0 + f.b1 + f.b2 + f.b3) % 256
    generalize f.b4 ^^^ (1 <<< (p % 8)) = y at hx
    generalize 2 ^ (p % 8) = t at hx hpow
    omega

/-- Witness for C10: the frame `[40, 2, 23, 5, 70]` with bit 7 of byte 2 flipped,
that is `[40, 2, 151, 5, 70]`. -/
theorem checksum_detects_single_bit_flip_witness :
    (⟨40, 2, 23, 5, 70⟩ : Frame).IsBytes ∧ checksumOk ⟨40, 2, 23, 5, 70⟩ = true ∧
    flipBit ⟨40, 2, 23, 5, 70⟩ 23 = ⟨40, 2, 151, 5, 70⟩ ∧
    checksumOk (flipBit ⟨40, 2, 23, 5, 70⟩ 23) = false :=
  ⟨by decide, by decide, by decide,
    checksum_detects_single_bit_flip ⟨40, 2, 23, 5, 70⟩ (by decide) (by decide) 23 (by decide)⟩

/-! ## More on the checksum and on the decode loop -/

/-- C11. For any four bytes `a b c d`, the checksum test of `readDHT` accepts the
frame `[a, b, c, d, (a + b + c + d) & 0xFF]`, the sum being taken without
wrap-around before the mask; the fifth entry is a byte. -/
theorem checksumOk_of_masked_sum (a b c d : Nat) :
    checksumOk ⟨a, b, c, d, (a + b + c + d) &&& 0xFF⟩ = true ∧
      (a + b + c + d) &&& 0xFF < 256 := by
  constructor
  · simp only [checksumOk, beq_self_eq_true]
  · have h : (a + b + c + d) &&& 0xFF = (a + b + c + d) % 256 :=
      Nat.and_pow_two_sub_one_eq_mod (a + b + c + d) 8
    rw [h]
    exact Nat.mod_lt _ (by decide)

/-- One iteration of the decode loop on a byte, as arithmetic. -/
theorem pushBit_eq (x : Nat) (b : Bool) :
    pushBit x b = (2 * x) % 256 + (if b then 1 else 0) := by
  have hs : x <<< 1 = 2 * x := by rw [Nat.shiftLeft_eq]; omega
  have hor : ∀ q : Nat, 2 * q ||| 1 = 2 * q + 1 := fun q =>
    (@Nat.mul_add_lt_is_or 1 1 (by decide) q).symm
  have hq : (2 * x) % 256 = 2 * (x % 128) := by omega
  cases b
  · simp only [pushBit, hs, Bool.false_eq_true, if_false, Nat.add_zero]
  · simp only [pushBit, hs, if_true, hq, hor]

/-- Eight pushes shift the starting content out of the byte. -/
theorem push8_start (x : Nat) (c0 c1 c2 c3 c4 c5 c6 c7 : Bool) :
    push8 x c0 c1 c2 c3 c4 c5 c6 c7 = push8 0 c0 c1 c2 c3 c4 c5 c6 c7 := by
  simp only [push8, pushBit_eq]
  have t0 : (if c0 = true then 1 else 0 : Nat) ≤ 1 := by split <;> omega
  have t1 : (if c1 = true then 1 else 0 : Nat) ≤ 1 := by split <;> omega
  have t2 : (if c2 = true then 1 else 0 : Nat) ≤ 1 := by split <;> omega
  have t3 : (if c3 = true then 1 else 0 : Nat) ≤ 1 := by split <;> omega
  have t4 : (if c4 = true then 1 else 0 : Nat) ≤ 1 := by split <;> omega
  have t5 : (if c5 = true then 1 else 0 : Nat) ≤ 1 := by split <;> omega
  have t6 : (if c6 = true then 1 else 0 : Nat) ≤ 1 := by split <;> omega
  have t7 : (if c7 = true then 1 else 0 : Nat) ≤ 1 := by split <;> omega
  generalize (if c0 = true then 1 else 0 : Nat) = a0 at t0 ⊢
  generalize (if c1 = true then 1 else 0 : Nat) = a1 at t1 ⊢
  generalize (if c2 = true then 1 else 0 : Nat) = a2 at t2 ⊢
  generalize (if c3 = true then 1 else 0 : Nat) = a3 at t3 ⊢
  generalize (if c4 = true then 1 else 0 : Nat) = a4 at t4 ⊢
  generalize (if c5 = true then 1 else 0 : Nat) = a5 at t5 ⊢
  generalize (if c6 = true then 1 else 0 : Nat) = a6 at t6 ⊢
  generalize (if c7 = true then 1 else 0 : Nat) = a7 at t7 ⊢
  omega

/-- The 40 iterations from any buffer, byte by byte. -/
theorem decodeBits_start (c : Nat → Bool) (d : Frame) :
    decodeBits c 40 0 d
      = ⟨push8 d.b0 (c 0) (c 1) (c 2) (c 3) (c 4) (c 5) (c 6) (c 7),
         push8 d.b1 (c 8) (c 9) (c 10) (c 11) (c 12) (c 13) (c 14) (c 15),
         push8 d.b2 (c 16) (c 17) (c 18) (c 19) (c 20) (c 21) (c 22) (c 23),
         push8 d.b3 (c 24) (c 25) (c 26) (c 27) (c 28) (c 29) (c 30) (c 31),
         push8 d.b4 (c 32) (c 33) (c 34) (c 35) (c 36) (c 37) (c 38) (c 39)⟩ := by
  obtain ⟨x0, x1, x2, x3, x4⟩ := d
  rfl

/-- The 40 iterations give the same frame from any buffer. -/
theorem decodeBits_any_start (c : Nat → Bool) (d : Frame) :
    decodeBits c 40 0 d = decodeBits c 40 0 Frame.zero := by
  rw [decodeBits_start c d, decodeBits_start c Frame.zero]
  simp only [push8_start d.b0, push8_start d.b1, push8_start d.b2, push8_start d.b3,
    push8_start d.b4, Frame.zero]

/-- C12. For 80 samples with no timeout sentinel the decode loop runs to the end
and produces five bytes that do not depend on the buffer it starts from; so
decoding the same samples again, starting from the frame just decoded, gives
that frame again. -/
theorem decodeLoop_ignores_start (cycles : Nat → Nat)
    (h : ∀ k, k < 80 → cycles k ≠ _TIMEOUT) (start : Frame) :
    ∃ data : Frame, decodeLoop cycles 40 0 start = (true, data) ∧
      decodeLoop cycles 40 0 Frame.zero = (true, data) ∧ data.IsBytes ∧
      decodeLoop cycles 40 0 data = (true, data) := by
  have hd : ∀ d : Frame, decodeLoop cycles 40 0 d
      = (true, decodeBits (pairBit cycles) 40 0 Frame.zero) := by
    intro d
    rw [decodeLoop_eq_decodeBits cycles 40 0 d (by omega) (fun k _ hk => h k (by omega)),
      decodeBits_any_start]
  refine ⟨_, hd start, hd Frame.zero, ?_, hd _⟩
  rw [decodeBits_zero]
  exact ⟨byteOf_lt _ _, byteOf_lt _ _, byteOf_lt _ _, byteOf_lt _ _, byteOf_lt _ _⟩

/-- Witness for C12: the samples of `[40, 2, 23, 5, 70]` decoded over the buffer
`[255, 255, 255, 255, 255]`. -/
theorem decodeLoop_ignores_start_witness :
    (∀ k, k < 80 → cyclesOfFrame ⟨40, 2, 23, 5, 70⟩ k ≠ _TIMEOUT) ∧
    ∃ data : Frame,
      decodeLoop (cyclesOfFrame ⟨40, 2, 23, 5, 70⟩) 40 0 ⟨255, 255, 255, 255, 255⟩
        = (true, data) ∧
      decodeLoop (cyclesOfFrame ⟨40, 2, 23, 5, 70⟩) 40 0 Frame.zero = (true, data) ∧
      data.IsBytes ∧
      decodeLoop (cyclesOfFrame ⟨40, 2, 23, 5, 70⟩) 40 0 data = (true, data) :=
  ⟨by decide, decodeLoop_ignores_start _ (by decide) ⟨255, 255, 255, 255, 255⟩⟩

/-! ## Capture timeouts, ties, and the polling speed -/

/-- The fold `decodeBits` reads only the bits it visits. -/
theorem decodeBits_congr (c1 c2 : Nat → Bool) :
    ∀ (n i : Nat) (d : Frame), (∀ k, i ≤ k → k < i + n → c1 k = c2 k) →
      decodeBits c1 n i d = decodeBits c2 n i d := by
  intro n
  induction n with
  | zero => intro i d _; rfl
  | succ n ih =>
    intro i d h
    rw [decodeBits, decodeBits, h i (by omega) (by omega)]
    exact ih (i + 1) _ (fun k h1 h2 => h k (by omega) (by omega))

/-- The decode loop leaves at the first pair that holds a sentinel, with the
bits of the pairs before it in the buffer. -/
theorem decodeLoop_stops (cycles : Nat → Nat) :
    ∀ (j n i : Nat) (data : Frame), i + j < 40 →
      (∀ k, 2 * i ≤ k → k < 2 * (i + j) → cycles k ≠ _TIMEOUT) →
      (cycles (2 * (i + j)) = _TIMEOUT ∨ cycles (2 * (i + j) + 1) = _TIMEOUT) →
      decodeLoop cycles (j + (n + 1)) i data = (false, decodeBits (pairBit cycles) j i data) := by
  intro j
  induction j with
  | zero =>
    intro n i data _ _ hat
    rw [Nat.zero_add, decodeLoop]
    rw [Nat.add_zero] at hat
    simp only [hat, if_true]
    rfl
  | succ j ih =>
    intro n i data hij hbefore hat
    rw [Nat.add_right_comm j 1 (n + 1),
      decodeLoop_step cycles (j + (n + 1)) i data (by omega)
        (hbefore _ (by omega) (by omega)) (hbefore _ (by omega) (by omega))]
    have e : i + (j + 1) = i + 1 + j := by omega
    rw [e] at hat
    rw [ih n (i + 1) _ (by omega) (fun k h1 h2 => hbefore k (by omega) (by omega)) hat]
    rfl

/-- Entry `k` of the list of samples is `cycles[k]`. -/
theorem samplesOf_getD (cycles : Nat → Nat) (k : Nat) (hk : k < 80) :
    (samplesOf cycles).getD k 0 = cycles k := by
  simp [samplesOf, List.getElem?_map, List.getElem?_range hk]

/-- C13 as stated fails: both acknowledgment pulses succeed, the first pair
decodes to a 1 bit, the second pair holds the sentinel; `readDHT` returns `false`
and the buffer is `[1, 0, 0, 0, 0]`, not all zero. -/
theorem readDHT_partial_frame_counterexample :
    ackLowSample (lineOf (levelsOf [(false, 4), (true, 4), (false, 3), (true, 5)])) 10 Wire.init
      = some 4 ∧
    ackHighSample (lineOf (levelsOf [(false, 4), (true, 4), (false, 3), (true, 5)])) 10 Wire.init
      = some 4 ∧
    (captureSamples (lineOf (levelsOf [(false, 4), (true, 4), (false, 3), (true, 5)])) 10
        Wire.init).map (fun l => l.take 4) = some [3, 5, 0, _TIMEOUT] ∧
    (readDHT (lineOf (levelsOf [(false, 4), (true, 4), (false, 3), (true, 5)])) 10
        ⟨Frame.zero, true⟩ Wire.init).map (fun r => (r.1, r.2.1.data))
      = some (false, ⟨1, 0, 0, 0, 0⟩) ∧
    (⟨1, 0, 0, 0, 0⟩ : Frame) ≠ Frame.zero := by
  decide

/-- C13, amended. When both acknowledgment pulses succeed and pair `j` is the
first pair of capture samples that holds the sentinel, `readDHT` returns `false`
and the buffer holds what the decode loop made of the `j` pairs before it,
starting from the zeroed buffer; it is all zero when `j = 0`. -/
theorem readDHT_capture_timeout (line : Nat → Bool) (mc : Nat) (g : Globals) (w : Wire)
    (aL aH : Nat) (l : List Nat) (j : Nat)
    (h1 : ackLowSample line mc w = some aL) (ha : aL ≠ _TIMEOUT)
    (h2 : ackHighSample line mc w = some aH) (hb : aH ≠ _TIMEOUT)
    (h3 : captureSamples line mc w = some l) (hj : j < 40)
    (hbefore : ∀ k, k < 2 * j → l.getD k 0 ≠ _TIMEOUT)
    (hat : l.getD (2 * j) 0 = _TIMEOUT ∨ l.getD (2 * j + 1) 0 = _TIMEOUT) :
    ∃ w2 data, readDHT line mc g w = some (false, ⟨data, false⟩, w2) ∧
      data = decodeBits (fun i => decide (l.getD (2 * i + 1) 0 > l.getD (2 * i) 0)) j 0
        Frame.zero ∧
      (j = 0 → data = Frame.zero) := by
  obtain ⟨u1, u2, cycles, u3, e1, e2, e3, e4⟩ := pulses_of_capture line mc w aL aH l h1 h2 h3
  obtain ⟨w2, hr⟩ := readDHT_outcome line mc g w aL aH cycles u1 u2 u3 e1 e2 e3
  have hget : ∀ k, k < 80 → l.getD k 0 = cycles k := by
    intro k hk
    rw [← e4, samplesOf_getD cycles k hk]
  have hbefore2 : ∀ k, 2 * 0 ≤ k → k < 2 * (0 + j) → cycles k ≠ _TIMEOUT := by
    intro k _ hk
    rw [← hget k (by omega)]
    exact hbefore k (by omega)
  have hat2 : cycles (2 * (0 + j)) = _TIMEOUT ∨ cycles (2 * (0 + j) + 1) = _TIMEOUT := by
    rw [Nat.zero_add, ← hget (2 * j) (by omega), ← hget (2 * j + 1) (by omega)]
    exact hat
  have hdec := decodeLoop_stops cycles j (39 - j) 0 Frame.zero (by omega) hbefore2 hat2
  have hfuel : j + (39 - j + 1) = 40 := by omega
  rw [hfuel] at hdec
  have hbits : decodeBits (pairBit cycles) j 0 Frame.zero
      = decodeBits (fun i => decide (l.getD (2 * i + 1) 0 > l.getD (2 * i) 0)) j 0
          Frame.zero := by
    apply decodeBits_congr
    intro k _ hk
    simp only [pairBit, hget (2 * k + 1) (by omega), hget (2 * k) (by omega)]
  have ho : outcomeOf aL aH cycles g
      = (false, ⟨decodeBits (pairBit cycles) j 0 Frame.zero, false⟩) := by
    unfold outcomeOf
    rw [if_neg ha, if_neg hb, hdec]
  rw [ho, hbits] at hr
  refine ⟨w2, _, hr, rfl, ?_⟩
  intro h0
  subst h0
  rfl

/-- Witness for the amended C13: the run of the counterexample, where pair 1 is
the first pair with the sentinel and the one bit decoded before it is a 1. -/
theorem readDHT_capture_timeout_witness :
    ∃ w2 data,
      readDHT (lineOf (levelsOf [(false, 4), (true, 4), (false, 3), (true, 5)])) 10
        ⟨Frame.zero, true⟩ Wire.init = some (false, ⟨data, false⟩, w2) ∧
      data = decodeBits
        (fun i => decide
          ((3 :: 5 :: (List.range 78).map (fun k => if k % 2 = 0 then 0 else _TIMEOUT)).getD
              (2 * i + 1) 0
            > (3 :: 5 :: (List.range 78).map (fun k => if k % 2 = 0 then 0 else _TIMEOUT)).getD
              (2 * i) 0)) 1 0 Frame.zero ∧
      (1 = 0 → data = Frame.zero) :=
  readDHT_capture_timeout (lineOf (levelsOf [(false, 4), (true, 4), (false, 3), (true, 5)])) 10
    ⟨Frame.zero, true⟩ Wire.init 4 4
    (3 :: 5 :: (List.range 78).map (fun k => if k % 2 = 0 then 0 else _TIMEOUT)) 1
    (by decide) (by decide) (by decide) (by decide) (by decide) (by decide) (by decide)
    (by decide)

/-- C15. In an exchange without timeout in which every high sample is at most
its paired low sample, `readDHT` decodes `[0, 0, 0, 0, 0]`, the checksum test
passes and `readDHT` returns `true`; the frame reads as 0 degrees and 0 percent. -/
theorem readDHT_all_ties (line : Nat → Bool) (mc : Nat) (g : Globals) (w : Wire)
    (aL aH : Nat) (l : List Nat)
    (h1 : ackLowSample line mc w = some aL) (ha : aL ≠ _TIMEOUT)
    (h2 : ackHighSample line mc w = some aH) (hb : aH ≠ _TIMEOUT)
    (h3 : captureSamples line mc w = some l)
    (hno : ∀ k, k < 80 → l.getD k 0 ≠ _TIMEOUT)
    (htie : ∀ i, i < 40 → l.getD (2 * i + 1) 0 ≤ l.getD (2 * i) 0) :
    ∃ w2, readDHT line mc g w = some (true, ⟨Frame.zero, true⟩, w2) ∧
      decodedFrame line mc w = some (true, Frame.zero) ∧
      checksumOk Frame.zero = true ∧
      readTemperature Frame.zero = 0 ∧ readHumidity Frame.zero = 0 := by
  obtain ⟨u1, u2, cycles, u3, e1, e2, e3, e4⟩ := pulses_of_capture line mc w aL aH l h1 h2 h3
  obtain ⟨w2, hr⟩ := readDHT_outcome line mc g w aL aH cycles u1 u2 u3 e1 e2 e3
  have hget : ∀ k, k < 80 → l.getD k 0 = cycles k := by
    intro k hk
    rw [← e4, samplesOf_getD cycles k hk]
  have hbits : decodeBits (pairBit cycles) 40 0 Frame.zero
      = decodeBits (fun _ => false) 40 0 Frame.zero := by
    apply decodeBits_congr
    intro k _ hk
    have := htie k (by omega)
    rw [hget (2 * k + 1) (by omega), hget (2 * k) (by omega)] at this
    simp only [pairBit, decide_eq_false_iff_not]
    omega
  have hzero : decodeBits (fun _ => false) 40 0 Frame.zero = Frame.zero := by decide
  have hdec : decodeLoop cycles 40 0 Frame.zero = (true, Frame.zero) := by
    rw [decodeLoop_eq_decodeBits cycles 40 0 Frame.zero (by omega)
      (fun k _ hk => by rw [← hget k (by omega)]; exact hno k (by omega)), hbits, hzero]
  have hk : checksumOk Frame.zero = true := by decide
  have ho : outcomeOf aL aH cycles g = (true, ⟨Frame.zero, true⟩) := by
    unfold outcomeOf
    rw [if_neg ha, if_neg hb, hdec]
    simp only [hk, if_true]
  rw [ho] at hr
  refine ⟨w2, hr, ?_, hk, ?_, ?_⟩
  · simp only [decodedFrame, e3, Option.map_some', hdec]
  · have h80 : (0 &&& 0x80 : Nat) = 0 := by decide
    have h0f : (0 &&& 0x0f : Nat) = 0 := by decide
    simp only [readTemperature, Frame.zero, h80, h0f]
    norm_num
  · simp only [readHumidity, Frame.zero]
    norm_num

/-- Witness for C15: the exchange in which every pair is a tie, 3 against 3. -/
theorem readDHT_all_ties_witness :
    ∃ w2, readDHT lineOfTies 1000 ⟨⟨9, 9, 9, 9, 9⟩, false⟩ Wire.init
        = some (true, ⟨Frame.zero, true⟩, w2) ∧
      decodedFrame lineOfTies 1000 Wire.init = some (true, Frame.zero) ∧
      checksumOk Frame.zero = true ∧
      readTemperature Frame.zero = 0 ∧ readHumidity Frame.zero = 0 :=
  readDHT_all_ties lineOfTies 1000 ⟨⟨9, 9, 9, 9, 9⟩, false⟩ Wire.init 4 4
    ((List.range 80).map (fun _ => 3))
    (by decide) (by decide) (by decide) (by decide) (by decide) (by decide) (by decide)

/-- C16. For 80 sentinel-free samples and a strictly increasing function `f` on
counts whose images of the samples stay below the sentinel, decoding the samples
mapped through `f` gives the same five bytes as decoding the samples. -/
theorem decodeLoop_strictMono (cycles : Nat → Nat) (f : Nat → Nat) (hf : StrictMono f)
    (h : ∀ k, k < 80 → cycles k ≠ _TIMEOUT)
    (hfs : ∀ k, k < 80 → f (cycles k) < _TIMEOUT) :
    ∃ data : Frame, decodeLoop (fun k => f (cycles k)) 40 0 Frame.zero = (true, data) ∧
      decodeLoop cycles 40 0 Frame.zero = (true, data) ∧ data.IsBytes := by
  have hbits : pairBit (fun k => f (cycles k)) = pairBit cycles := by
    funext i
    simp only [pairBit, gt_iff_lt, hf.lt_iff_lt]
  have h1 := decodeLoop_eq_decodeBits (fun k => f (cycles k)) 40 0 Frame.zero (by omega)
    (fun k _ hk => Nat.ne_of_lt (hfs k (by omega)))
  have h2 := decodeLoop_eq_decodeBits cycles 40 0 Frame.zero (by omega)
    (fun k _ hk => h k (by omega))
  rw [hbits] at h1
  refine ⟨_, h1, h2, ?_⟩
  rw [decodeBits_zero]
  exact ⟨byteOf_lt _ _, byteOf_lt _ _, byteOf_lt _ _, byteOf_lt _ _, byteOf_lt _ _⟩

/-- Witness for C16: the samples of `[40, 2, 23, 5, 70]` with every count
doubled, as on a line polled twice as fast. -/
theorem decodeLoop_strictMono_witness :
    StrictMono (fun n : Nat => 2 * n) ∧
    (∀ k, k < 80 → cyclesOfFrame ⟨40, 2, 23, 5, 70⟩ k ≠ _TIMEOUT) ∧
    (∀ k, k < 80 → 2 * cyclesOfFrame ⟨40, 2, 23, 5, 70⟩ k < _TIMEOUT) ∧
    ∃ data : Frame,
      decodeLoop (fun k => 2 * cyclesOfFrame ⟨40, 2, 23, 5, 70⟩ k) 40 0 Frame.zero
        = (true, data) ∧
      decodeLoop (cyclesOfFrame ⟨40, 2, 23, 5, 70⟩) 40 0 Frame.zero = (true, data) ∧
      data.IsBytes :=
  ⟨fun a b hab => by show 2 * a < 2 * b; omega, by decide, by decide,
    decodeLoop_strictMono (cyclesOfFrame ⟨40, 2, 23, 5, 70⟩) (fun n => 2 * n)
      (fun a b hab => by show 2 * a < 2 * b; omega) (by decide) (by decide)⟩

/-! ## The counter of the pulse meter -/

/-- The loop with its counter in view, started with a counter that is at most
`_maxcycles` and has not wrapped: it returns what `expectPulseLoop` returns, the
value is the sentinel or at most `_maxcycles`, and the counter wraps only when
`_maxcycles = UINT32_MAX`, in the increment that goes with the timeout return. -/
theorem expectPulseCounter_range (line : Nat → Bool) (level : Bool) (mc : Nat)
    (hmc : mc < 2 ^ 32) :
    ∀ (fuel count : Nat) (w : Wire), count ≤ mc → mc - count < fuel →
      ∃ r : PulseRun, expectPulseCounter line level mc fuel count false w = some r ∧
        expectPulseLoop line level mc fuel count w = some (r.value, r.wire) ∧
        (r.value = _TIMEOUT ∨ r.value ≤ mc) ∧
        (mc < _TIMEOUT → r.wrapped = false) ∧
        (mc < _TIMEOUT → r.timedOut = false → r.value ≠ _TIMEOUT) ∧
        (r.wrapped = true → r.timedOut = true ∧ r.value = _TIMEOUT) := by
  intro fuel
  induction fuel with
  | zero => intro count w _ hf; omega
  | succ f ih =>
    intro count w hc hf
    rw [expectPulseCounter, expectPulseLoop]
    by_cases h0 : (gpiod_line_get_value line w).1 = level
    · by_cases hge : count ≥ mc
      · simp only [h0, hge, if_true]
        refine ⟨_, rfl, rfl, Or.inl rfl, ?_, ?_, ?_⟩
        · intro hlt
          have : ¬ 2 ^ 32 ≤ count + 1 := by
            have : _TIMEOUT = 2 ^ 32 - 1 := by decide
            omega
          show (false || decide (2 ^ 32 ≤ count + 1)) = false
          simp only [Bool.false_or, decide_eq_false_iff_not]
          exact this
        · intro _ hto
          cases hto
        · intro _
          exact ⟨rfl, rfl⟩
      · have hmod : (count + 1) % 2 ^ 32 = count + 1 := Nat.mod_eq_of_lt (by omega)
        have hnw : (false || decide (2 ^ 32 ≤ count + 1)) = false := by
          have : ¬ 2 ^ 32 ≤ count + 1 := by omega
          simp only [Bool.false_or, decide_eq_false_iff_not]
          exact this
        simp only [h0, hge, if_true, if_false, hmod, hnw]
        exact ih (count + 1) (gpiod_line_get_value line w).2 (by omega) (by omega)
    · simp only [h0, if_false]
      refine ⟨_, rfl, rfl, Or.inr hc, ?_, ?_, ?_⟩
      · intro _
        rfl
      · intro hlt _
        show count ≠ _TIMEOUT
        exact Nat.ne_of_lt (Nat.lt_of_le_of_lt hc hlt)
      · intro hw
        cases hw

/-- The loop with its counter in view on a line stuck at the target level. -/
theorem expectPulseCounter_stuck (line : Nat → Bool) (level : Bool) (mc : Nat)
    (hmc : mc < 2 ^ 32) :
    ∀ (m fuel count : Nat) (w : Wire), m < fuel → count + m = mc →
      (∀ k, k ≤ m → line (w.polls + k) = level) →
      expectPulseCounter line level mc fuel count false w
        = some ⟨_TIMEOUT, true, (mc + 1) % 2 ^ 32, decide (2 ^ 32 ≤ mc + 1),
            w.polled (m + 1)⟩ := by
  intro m
  induction m with
  | zero =>
    intro fuel count w hf hc hlv
    obtain ⟨f, rfl⟩ : ∃ f, fuel = f + 1 := ⟨fuel - 1, by omega⟩
    have h0 : line w.polls = level := by simpa using hlv 0 (by omega)
    have hge : count ≥ mc := by omega
    have hcm : count = mc := by omega
    subst hcm
    simp [expectPulseCounter, gpiod_line_get_value, h0, Wire.polled]
  | succ m ih =>
    intro fuel count w hf hc hlv
    obtain ⟨f, rfl⟩ : ∃ f, fuel = f + 1 := ⟨fuel - 1, by omega⟩
    have h0 : line w.polls = level := by simpa using hlv 0 (by omega)
    have hlt : ¬ count ≥ mc := by omega
    have hmod : (count + 1) % 2 ^ 32 = count + 1 := Nat.mod_eq_of_lt (by omega)
    have hnw : (false || decide (2 ^ 32 ≤ count + 1)) = false := by
      have : ¬ 2 ^ 32 ≤ count + 1 := by omega
      simp only [Bool.false_or, decide_eq_false_iff_not]
      exact this
    have hrec := ih f (count + 1) (w.polled 1) (by omega) (by omega)
      (fun k hk => by
        have := hlv (k + 1) (by omega)
        simpa [Wire.polled, Nat.add_assoc, Nat.add_comm 1 k] using this)
    rw [expectPulseCounter]
    simp only [gpiod_line_get_value, h0, if_true, hlt, if_false, hmod, hnw]
    change expectPulseCounter line level mc f (count + 1) false (w.polled 1) = _
    rw [hrec, Wire.polled_succ]

/-- C14 as stated fails for `_maxcycles = UINT32_MAX`: on a line stuck at the
target level the counter reaches `UINT32_MAX`, and the `count++` of the pass that
returns the sentinel wraps it to 0. -/
theorem expectPulse_counter_wraps_counterexample :
    (expectPulseRun (fun _ => false) 4294967295 false Wire.init).map
        (fun r => (r.value, r.timedOut, r.count, r.wrapped))
      = some (_TIMEOUT, true, 0, true) := by
  have h := expectPulseCounter_stuck (fun _ => false) false 4294967295 (by decide)
    4294967295 (4294967295 + 1) 0 Wire.init (by omega) (by omega) (fun _ _ => rfl)
  unfold expectPulseRun
  rw [h]
  decide

/-- C14, amended. For every line and every 32-bit timeout bound `_maxcycles`,
`expectPulse` returns the sentinel or a count that is at most `_maxcycles`; when
`_maxcycles < UINT32_MAX` its counter never wraps around and a value returned
because the level changed is never the sentinel; the counter can wrap only in
the increment that goes with the timeout return. -/
theorem expectPulse_sentinel_range (line : Nat → Bool) (mc : Nat) (level : Bool) (w : Wire)
    (hmc : mc < 2 ^ 32) :
    ∃ r : PulseRun, expectPulseRun line mc level w = some r ∧
      expectPulse line mc level w = some (r.value, r.wire) ∧
      (r.value = _TIMEOUT ∨ r.value ≤ mc) ∧
      (mc < _TIMEOUT → r.wrapped = false) ∧
      (mc < _TIMEOUT → r.timedOut = false → r.value ≠ _TIMEOUT) ∧
      (r.wrapped = true → r.timedOut = true ∧ r.value = _TIMEOUT) :=
  expectPulseCounter_range line level mc hmc (mc + 1) 0 w (by omega) (by omega)

/-- Witness for the amended C14: three low polls and a high one with
`_maxcycles = 5`. -/
theorem expectPulse_sentinel_range_witness :
    (5 < 2 ^ 32) ∧
    ∃ r : PulseRun, expectPulseRun (lineOf [false, false, false, true]) 5 false Wire.init
        = some r ∧
      expectPulse (lineOf [false, false, false, true]) 5 false Wire.init
        = some (r.value, r.wire) ∧
      (r.value = _TIMEOUT ∨ r.value ≤ 5) ∧
      (5 < _TIMEOUT → r.wrapped = false) ∧
      (5 < _TIMEOUT → r.timedOut = false → r.value ≠ _TIMEOUT) ∧
      (r.wrapped = true → r.timedOut = true ∧ r.value = _TIMEOUT) :=
  ⟨by decide,
    expectPulse_sentinel_range (lineOf [false, false, false, true]) 5 false Wire.init
      (by decide)⟩

end DHT11
